import Mathlib

/-!
Verification development for the CgbiPngFix repository (package ipaPng).

The Go source is shallowly embedded: byte streams are lists of natural
numbers (each byte a value below 256 where it matters), `uint8`/`uint32`
arithmetic carries explicit `% 256` / `% 2^32` where overflow matters,
`io.Reader` consumption is modelled by returning the unread remainder of
the input list, and fallible operations return `Except`.
-/

namespace IpaPng

/-- Errors of the decode pipeline.  Each constructor corresponds to one of
the `errors.New`/propagated failure sites of the Go source; the checksum
error carries the chunk type, as the Go message does. -/
inductive PErr where
  | truncated
  | checksumMismatch (ctype : List Nat)
  | notAPng
  | noChunks
  | chunkOrder
  | missingIend
  | invalidIHDRLength
  | invalidWidth
  | invalidHeight
  | invalidColorDepth
  | invalidCompressionMethod
  | invalidFilterMethod
  | invalidInterlaceMethod
  | insufficientPixelData
  | badFilterType
  | zlibError
  deriving DecidableEq, Repr

/-- Helper: `binary.BigEndian.Uint32`, reading the first four bytes of a list. -/
def beU32 (l : List Nat) : Nat :=
  l.getD 0 0 * 16777216 + l.getD 1 0 * 65536 + l.getD 2 0 * 256 + l.getD 3 0

/-- The reflected CRC-32 (IEEE) polynomial, as used by `crc32.NewIEEE()`. -/
def crcPoly : Nat := 0xEDB88320

/-- One bit-step of the reflected CRC-32 computation: `b` is the next message
bit (low bit used), `s` the 32-bit running state. -/
def crcBit (s b : Nat) : Nat :=
  s / 2 ^^^ ((s ^^^ b) % 2 * crcPoly)

/-- Feed the `n` low bits of `byte` (LSB first) into the CRC state. -/
def crcBits : Nat → Nat → Nat → Nat
  | 0, s, _ => s
  | n + 1, s, byte => crcBits n (crcBit s (byte % 2)) (byte / 2)

/-- Feed a list of bytes into the CRC state (`hash.Hash32.Write`). -/
def crc32Update (s : Nat) (bytes : List Nat) : Nat :=
  bytes.foldl (fun st byte => crcBits 8 st byte) s

/-- CRC-32 (IEEE) of a byte list: the value `crc32.NewIEEE()` sums after
writing `bytes` (initial state and final mask `0xFFFFFFFF`). -/
def crc32 (bytes : List Nat) : Nat :=
  crc32Update 0xFFFFFFFF bytes ^^^ 0xFFFFFFFF

/-- A PNG chunk as read by `Chunk.Populate`: declared data length, 4-byte
type tag, data bytes and declared CRC-32.  Go keeps the tag as a `string`
of the raw bytes; it is kept here as the byte list itself. -/
structure GoChunk where
  length : Nat
  ctype : List Nat
  data : List Nat
  crcVal : Nat
  deriving DecidableEq, Repr

/-- Chunk framing (`Chunk.Populate`): read a 4-byte big-endian length, the
4-byte type, `length` data bytes and a 4-byte big-endian CRC, then verify
the CRC-32 of type followed by data.  Short reads (`io.ReadFull` failures)
are `truncated`; a CRC difference is the checksum error naming the chunk
type.  The unread remainder of the input is returned alongside the chunk
(the reader advances past the chunk). -/
def Chunk.Populate (input : List Nat) : Except PErr (GoChunk × List Nat) :=
  if input.length < 4 then .error .truncated else
  let len := beU32 (input.take 4)
  let r1 := input.drop 4
  if r1.length < 4 then .error .truncated else
  let ctype := r1.take 4
  let r2 := r1.drop 4
  if r2.length < len then .error .truncated else
  let data := r2.take len
  let r3 := r2.drop len
  if r3.length < 4 then .error .truncated else
  let declared := beU32 (r3.take 4)
  if declared ≠ crc32 (ctype ++ data) then .error (.checksumMismatch ctype)
  else .ok (⟨len, ctype, data, declared⟩, r3.drop 4)

/-! CRC-32 algebra: the bit step is GF(2)-linear and injective on 32-bit
states, hence a single flipped message bit always changes the checksum. -/

lemma xor_left_comm (a b c : Nat) : a ^^^ (b ^^^ c) = b ^^^ (a ^^^ c) := by
  rw [← Nat.xor_assoc, Nat.xor_comm a b, Nat.xor_assoc]

lemma xor_div_two (a b : Nat) : (a ^^^ b) / 2 = a / 2 ^^^ b / 2 := by
  apply Nat.eq_of_testBit_eq
  intro i
  simp [Nat.testBit_div_two]

lemma xor_mod_two (a b : Nat) : (a ^^^ b) % 2 = (a % 2) ^^^ (b % 2) := by
  rw [Nat.xor_mod_two_eq]
  rcases Nat.mod_two_eq_zero_or_one a with ha | ha <;>
    rcases Nat.mod_two_eq_zero_or_one b with hb | hb <;>
      rw [ha, hb] <;>
        simp only [Nat.zero_xor, Nat.xor_zero, Nat.xor_self] <;> omega

lemma crcBit_linear (s1 b1 s2 b2 : Nat) :
    crcBit (s1 ^^^ s2) (b1 ^^^ b2) = crcBit s1 b1 ^^^ crcBit s2 b2 := by
  unfold crcBit
  have hmask : ((s1 ^^^ s2) ^^^ (b1 ^^^ b2)) % 2 =
      ((s1 ^^^ b1) % 2) ^^^ ((s2 ^^^ b2) % 2) := by
    have hA := @Nat.xor_mod_two_eq s1 s2
    have hB := @Nat.xor_mod_two_eq b1 b2
    have hAB := @Nat.xor_mod_two_eq (s1 ^^^ s2) (b1 ^^^ b2)
    have h1 := @Nat.xor_mod_two_eq s1 b1
    have h2 := @Nat.xor_mod_two_eq s2 b2
    rw [hAB, h1, h2]
    rcases Nat.mod_two_eq_zero_or_one (s1 + b1) with e1 | e1 <;>
      rcases Nat.mod_two_eq_zero_or_one (s2 + b2) with e2 | e2 <;>
        rw [e1, e2] <;>
          simp only [Nat.zero_xor, Nat.xor_zero, Nat.xor_self] <;> omega
  rw [hmask, xor_div_two]
  rcases Nat.mod_two_eq_zero_or_one (s1 ^^^ b1) with h1 | h1 <;>
    rcases Nat.mod_two_eq_zero_or_one (s2 ^^^ b2) with h2 | h2 <;>
      simp [h1, h2, Nat.xor_assoc, Nat.xor_comm, xor_left_comm,
        Nat.xor_cancel_left]

lemma crcBits_linear (n : Nat) : ∀ s1 b1 s2 b2,
    crcBits n (s1 ^^^ s2) (b1 ^^^ b2) = crcBits n s1 b1 ^^^ crcBits n s2 b2 := by
  induction n with
  | zero => intro s1 b1 s2 b2; rfl
  | succ n ih =>
    intro s1 b1 s2 b2
    show crcBits n (crcBit (s1 ^^^ s2) ((b1 ^^^ b2) % 2)) ((b1 ^^^ b2) / 2) = _
    rw [xor_mod_two, xor_div_two, crcBit_linear, ih]
    rfl

lemma crc32Update_linear : ∀ (m1 m2 : List Nat) (s1 s2 : Nat),
    m1.length = m2.length →
    crc32Update (s1 ^^^ s2) (List.zipWith (· ^^^ ·) m1 m2) =
      crc32Update s1 m1 ^^^ crc32Update s2 m2 := by
  intro m1
  induction m1 with
  | nil =>
    intro m2 s1 s2 h
    cases m2 with
    | nil => rfl
    | cons b bs => simp at h
  | cons a as ih =>
    intro m2 s1 s2 h
    cases m2 with
    | nil => simp at h
    | cons b bs =>
      show crc32Update (crcBits 8 (s1 ^^^ s2) (a ^^^ b)) (List.zipWith _ as bs) = _
      rw [crcBits_linear, ih bs (crcBits 8 s1 a) (crcBits 8 s2 b) (by simpa using h)]
      rfl

lemma crcBit_lt (s b : Nat) (h : s < 2 ^ 32) : crcBit s b < 2 ^ 32 := by
  unfold crcBit
  have h2 : s / 2 < 2 ^ 32 := lt_of_le_of_lt (Nat.div_le_self s 2) h
  rcases Nat.mod_two_eq_zero_or_one (s ^^^ b) with hm | hm <;> rw [hm]
  · simpa using h2
  · exact Nat.xor_lt_two_pow h2 (by norm_num [crcPoly])

lemma crcBit_zero_ne (s : Nat) (h0 : s ≠ 0) (h : s < 2 ^ 32) :
    crcBit s 0 ≠ 0 := by
  unfold crcBit
  rw [Nat.xor_zero]
  rcases Nat.mod_two_eq_zero_or_one s with hm | hm <;> rw [hm]
  · simp only [Nat.zero_mul, Nat.xor_zero]
    omega
  · intro hc
    rw [Nat.one_mul, Nat.xor_eq_zero] at hc
    have : crcPoly = 3988292384 := by norm_num [crcPoly]
    omega

lemma crcBits_zero_ne (n : Nat) : ∀ s, s ≠ 0 → s < 2 ^ 32 →
    crcBits n s 0 ≠ 0 ∧ crcBits n s 0 < 2 ^ 32 := by
  induction n with
  | zero => intro s h0 h; exact ⟨h0, h⟩
  | succ n ih =>
    intro s h0 h
    show crcBits n (crcBit s 0) 0 ≠ 0 ∧ crcBits n (crcBit s 0) 0 < 2 ^ 32
    exact ih _ (crcBit_zero_ne s h0 h) (crcBit_lt s 0 h)

lemma crc32Update_zeros_ne (k : Nat) : ∀ s, s ≠ 0 → s < 2 ^ 32 →
    crc32Update s (List.replicate k 0) ≠ 0 := by
  induction k with
  | zero => intro s h0 _; exact h0
  | succ k ih =>
    intro s h0 h
    show crc32Update (crcBits 8 s 0) (List.replicate k 0) ≠ 0
    exact ih _ (crcBits_zero_ne 8 s h0 h).1 (crcBits_zero_ne 8 s h0 h).2

lemma crcBits_single (b : Nat) (hb : b < 8) :
    crcBits 8 0 (2 ^ b) ≠ 0 ∧ crcBits 8 0 (2 ^ b) < 2 ^ 32 := by
  interval_cases b <;> exact ⟨by decide, by decide⟩

lemma crc32Update_single_ne (i j b : Nat) (hb : b < 8) :
    crc32Update 0 (List.replicate i 0 ++ 2 ^ b :: List.replicate j 0) ≠ 0 := by
  have hz : crc32Update 0 (List.replicate i 0) = 0 := by
    induction i with
    | zero => rfl
    | succ i ih =>
      show crc32Update (crcBits 8 0 0) (List.replicate i 0) = 0
      have : crcBits 8 0 0 = 0 := by decide
      rw [this]; exact ih
  unfold crc32Update at hz ⊢
  rw [List.foldl_append, hz]
  show crc32Update (crcBits 8 0 (2 ^ b)) (List.replicate j 0) ≠ 0
  exact crc32Update_zeros_ne j _ (crcBits_single b hb).1 (crcBits_single b hb).2

lemma zipWith_xor_zero : ∀ as : List Nat,
    List.zipWith (· ^^^ ·) as (List.replicate as.length 0) = as := by
  intro as
  induction as with
  | nil => rfl
  | cons a as ih =>
    simp only [List.length_cons, List.replicate_succ, List.zipWith,
      Nat.xor_zero]
    rw [ih]

lemma set_eq_zipWith_xor : ∀ (m : List Nat) (i v : Nat), i < m.length →
    m.set i (m.getD i 0 ^^^ v) =
      List.zipWith (· ^^^ ·) m
        (List.replicate i 0 ++ v :: List.replicate (m.length - i - 1) 0) := by
  intro m
  induction m with
  | nil => intro i v h; simp at h
  | cons a as ih =>
    intro i v h
    cases i with
    | zero =>
      have hl : (a :: as).length - 0 - 1 = as.length := by simp
      rw [hl]
      simp only [List.replicate_zero, List.nil_append, List.zipWith,
        List.set, List.getD_cons_zero]
      rw [zipWith_xor_zero]
    | succ i =>
      simp only [List.length_cons] at h
      have hl : (a :: as).length - (i + 1) - 1 = as.length - i - 1 := by
        simp only [List.length_cons]; omega
      rw [hl]
      simp only [List.replicate_succ, List.cons_append, List.zipWith,
        List.set, List.getD_cons_succ, Nat.xor_zero]
      rw [ih i v (by omega)]
      rfl

/-- Core CRC fact: flipping a single bit (bit `b` of byte `i`) of a message
always changes its CRC-32. -/
theorem crc32_flip_ne (m : List Nat) (i b : Nat) (hi : i < m.length)
    (hb : b < 8) :
    crc32 (m.set i (m.getD i 0 ^^^ 2 ^ b)) ≠ crc32 m := by
  set e : List Nat :=
    List.replicate i 0 ++ 2 ^ b :: List.replicate (m.length - i - 1) 0 with he
  have hlen : m.length = e.length := by
    rw [he]; simp; omega
  have hset : m.set i (m.getD i 0 ^^^ 2 ^ b) = List.zipWith (· ^^^ ·) m e :=
    set_eq_zipWith_xor m i (2 ^ b) hi
  have hlin : crc32Update 0xFFFFFFFF (List.zipWith (· ^^^ ·) m e) =
      crc32Update 0xFFFFFFFF m ^^^ crc32Update 0 e := by
    have h0 : (0xFFFFFFFF : Nat) = 0xFFFFFFFF ^^^ 0 := by decide
    calc crc32Update 0xFFFFFFFF (List.zipWith (· ^^^ ·) m e)
        = crc32Update (0xFFFFFFFF ^^^ 0) (List.zipWith (· ^^^ ·) m e) := by
          rw [← h0]
      _ = crc32Update 0xFFFFFFFF m ^^^ crc32Update 0 e :=
          crc32Update_linear m e 0xFFFFFFFF 0 hlen
  intro hc
  unfold crc32 at hc
  rw [hset, hlin] at hc
  have h1 : crc32Update 0xFFFFFFFF m ^^^ crc32Update 0 e =
      crc32Update 0xFFFFFFFF m := by
    have h2 := congrArg (fun x => x ^^^ (0xFFFFFFFF : Nat)) hc
    simpa [Nat.xor_cancel_right] using h2
  have hcancel : crc32Update 0 e = 0 := by
    have h3 := Nat.xor_cancel_left (crc32Update 0xFFFFFFFF m) (crc32Update 0 e)
    rw [h1, Nat.xor_self] at h3
    exact h3.symm
  exact crc32Update_single_ne i (m.length - i - 1) b hb (by rw [he] at hcancel; exact hcancel)

/-! Projections of the four fields `Chunk.Populate` frames out of its raw
input, used to state claims about it. -/

/-- Declared big-endian data length of the chunk at the head of `input`. -/
def popLen (input : List Nat) : Nat := beU32 (input.take 4)

/-- The 4 type bytes of the chunk at the head of `input`. -/
def popType (input : List Nat) : List Nat := (input.drop 4).take 4

/-- The data bytes of the chunk at the head of `input`. -/
def popData (input : List Nat) : List Nat := (input.drop 8).take (popLen input)

/-- The declared big-endian CRC of the chunk at the head of `input`. -/
def popCrc (input : List Nat) : Nat :=
  beU32 ((input.drop (8 + popLen input)).take 4)

lemma populate_of_enough (input : List Nat)
    (h : 12 + popLen input ≤ input.length) :
    Chunk.Populate input =
      if popCrc input ≠ crc32 (popType input ++ popData input) then
        .error (.checksumMismatch (popType input))
      else
        .ok (⟨popLen input, popType input, popData input, popCrc input⟩,
          (input.drop (8 + popLen input)).drop 4) := by
  unfold popCrc popData popType popLen at *
  simp only [Chunk.Populate]
  rw [if_neg (by omega)]
  rw [if_neg (by rw [List.length_drop]; omega)]
  rw [if_neg (by simp only [List.drop_drop, List.length_drop]; norm_num; omega)]
  rw [if_neg (by simp only [List.drop_drop, List.length_drop]; norm_num; omega)]
  simp only [List.drop_drop]

/-- C4: with enough input bytes for all four fields, `Chunk.Populate` fails
with the checksum error naming the chunk's type exactly when the declared
big-endian CRC differs from CRC-32 over the type bytes followed by the data
bytes, succeeds otherwise, and flipping any single bit of a verifying
chunk's data yields the checksum error. -/
theorem C4_populate_checksum (input : List Nat)
    (h : 12 + popLen input ≤ input.length) :
    (Chunk.Populate input = .error (.checksumMismatch (popType input)) ↔
       popCrc input ≠ crc32 (popType input ++ popData input))
    ∧ ((∃ c rest, Chunk.Populate input = .ok (c, rest)) ↔
       popCrc input = crc32 (popType input ++ popData input))
    ∧ (∀ i b, i < popLen input → b < 8 →
        popCrc input = crc32 (popType input ++ popData input) →
        Chunk.Populate (input.set (8 + i) (input.getD (8 + i) 0 ^^^ 2 ^ b)) =
          .error (.checksumMismatch (popType input))) := by
  have hch := populate_of_enough input h
  refine ⟨?_, ?_, ?_⟩
  · constructor
    · intro he
      by_contra hc
      rw [hch, if_neg (fun hne => hne hc)] at he
      exact Except.noConfusion he
    · intro hne
      rw [hch, if_pos hne]
  · constructor
    · intro ⟨c, rest, hok⟩
      by_contra hc
      rw [hch, if_pos hc] at hok
      exact Except.noConfusion hok
    · intro heq
      rw [hch, if_neg (by simpa using heq)]
      exact ⟨_, _, rfl⟩
  · intro i b hi hb heq
    set v : Nat := input.getD (8 + i) 0 ^^^ 2 ^ b with hv
    have hlen8 : 8 + i < input.length := by omega
    have hLen : popLen (input.set (8 + i) v) = popLen input := by
      unfold popLen
      rw [List.set_take, List.set_eq_of_length_le]
      exact le_trans (List.length_take_le 4 input) (by omega)
    have hTy : popType (input.set (8 + i) v) = popType input := by
      unfold popType
      rw [List.drop_set, if_neg (by omega), List.set_take,
        List.set_eq_of_length_le]
      exact le_trans (List.length_take_le 4 (input.drop 4)) (by omega)
    have hData : popData (input.set (8 + i) v) =
        (popData input).set i v := by
      unfold popData
      rw [hLen, List.drop_set, if_neg (by omega), List.set_take]
      congr 2
      omega
    have hCrc : popCrc (input.set (8 + i) v) = popCrc input := by
      unfold popCrc
      rw [hLen, List.drop_set, if_pos (by omega)]
    have hgd : input.getD (8 + i) 0 = (popData input).getD i 0 := by
      unfold popData
      simp only [List.getD_eq_getElem?_getD]
      rw [List.getElem?_take_of_lt hi, List.getElem?_drop]
    have hdlen : (popData input).length = popLen input := by
      unfold popData
      rw [List.length_take, List.length_drop]
      omega
    have htylen : (popType input).length = 4 := by
      unfold popType
      rw [List.length_take_of_le]
      rw [List.length_drop]
      omega
    have hmlen : 4 + i < (popType input ++ popData input).length := by
      rw [List.length_append, htylen, hdlen]
      omega
    have hne2 : crc32 (popType input ++ popData (input.set (8 + i) v)) ≠
        popCrc input := by
      rw [hData]
      have hset : popType input ++ (popData input).set i v =
          (popType input ++ popData input).set (4 + i)
            ((popType input ++ popData input).getD (4 + i) 0 ^^^ 2 ^ b) := by
        rw [List.set_append_right _ _ (by omega)]
        congr 2
        · omega
        · rw [hv, hgd]
          congr 1
          simp only [List.getD_eq_getElem?_getD]
          rw [List.getElem?_append_right (by omega)]
          congr 2
          omega
      rw [hset, heq]
      exact crc32_flip_ne (popType input ++ popData input) (4 + i) b hmlen hb
    have h2 : 12 + popLen (input.set (8 + i) v) ≤
        (input.set (8 + i) v).length := by
      rw [hLen, List.length_set]
      exact h
    rw [populate_of_enough (input.set (8 + i) v) h2, hTy, hCrc,
      if_pos (fun hcc => hne2 hcc.symm)]

/-- Witness for C4 at a concrete verifying `IEND` chunk: it populates
successfully, and flipping any bit of any data byte of a concrete verifying
`tEXt` chunk produces the checksum error. -/
theorem C4_witness :
    (∃ c rest, Chunk.Populate [0, 0, 0, 0, 73, 69, 78, 68, 174, 66, 96, 130] =
      .ok (c, rest)) ∧
    Chunk.Populate
        (([0, 0, 0, 1, 116, 69, 88, 116, 55, 247, 251, 127, 232] : List Nat).set 8
          (55 ^^^ 1)) =
      .error (.checksumMismatch [116, 69, 88, 116]) := by
  constructor
  · exact (C4_populate_checksum _ (by decide)).2.1.mpr (by decide)
  · have hflip := (C4_populate_checksum
      [0, 0, 0, 1, 116, 69, 88, 116, 55, 247, 251, 127, 232] (by decide)).2.2
      0 0 (by decide) (by decide) (by decide)
    simpa using hflip

/-! Chunk-order state machine of `parseChunk`.  The Go code drives a
string-valued `stage` over the chunk types from index 1 onward; stages and
chunk type tags are Go strings of raw bytes, modelled as byte lists. -/

/-- Initial stage (`dsStart`, the empty string). -/
def dsStart : List Nat := []

/-- The bytes of `"CgBI"` (`dsSeenCgBI`). -/
def dsSeenCgBI : List Nat := [67, 103, 66, 73]

/-- The bytes of `"IHDR"` (`dsSeenIHDR`). -/
def dsSeenIHDR : List Nat := [73, 72, 68, 82]

/-- The bytes of `"IDAT"` (`dsSeenIDAT`). -/
def dsSeenIDAT : List Nat := [73, 68, 65, 84]

/-- The bytes of `"IEND"` (`dsSeenIEND`). -/
def dsSeenIEND : List Nat := [73, 69, 78, 68]

/-- One step of the `parseChunk` chunk-order machine (the `switch
chunk.CType` of the loop): the stage transition and order checks, with the
per-chunk payload work (`parseIHDR` / `parseIDAT` / `decode`), which is
modelled separately, abstracted as succeeding. -/
def stageStep (stage ctype : List Nat) : Except PErr (List Nat) :=
  if ctype = dsSeenIHDR then
    if stage ≠ dsStart then .error .chunkOrder else .ok dsSeenIHDR
  else if ctype = dsSeenIDAT then
    if stage ≠ dsSeenIHDR ∧ stage ≠ dsSeenIDAT then .error .chunkOrder
    else .ok dsSeenIDAT
  else if ctype = dsSeenIEND then
    if stage ≠ dsSeenIDAT then .error .chunkOrder else .ok dsSeenIEND
  else .ok stage

/-- Run the order machine over a list of chunk types. -/
def runStages : List (List Nat) → List Nat → Except PErr (List Nat)
  | [], s => .ok s
  | t :: ts, s =>
    match stageStep s t with
    | .error e => .error e
    | .ok s2 => runStages ts s2

/-- The order-machine part of `parseChunk` over the types of the chunks
from index 1 onward: run the stage loop from `dsStart`, then fail with the
missing-IEND error unless the final stage is `dsSeenIEND`. -/
def parseChunkOrder (ts : List (List Nat)) : Except PErr Unit :=
  match runStages ts dsStart with
  | .error e => .error e
  | .ok s => if s ≠ dsSeenIEND then .error .missingIend else .ok ()

/-- Whether a chunk type is one of the three the order machine reacts to. -/
def isCritical (t : List Nat) : Bool :=
  t == dsSeenIHDR || t == dsSeenIDAT || t == dsSeenIEND

lemma runStages_cons_ok {s t s2 : List Nat} (ts : List (List Nat))
    (h : stageStep s t = .ok s2) :
    runStages (t :: ts) s = runStages ts s2 := by
  show (match stageStep s t with
    | .error e => Except.error e
    | .ok s3 => runStages ts s3) = runStages ts s2
  rw [h]

lemma runStages_cons_err {s t : List Nat} {e : PErr} (ts : List (List Nat))
    (h : stageStep s t = .error e) :
    runStages (t :: ts) s = .error e := by
  show (match stageStep s t with
    | .error e => Except.error e
    | .ok s3 => runStages ts s3) = Except.error e
  rw [h]

lemma stageStep_other (s : List Nat) {t : List Nat}
    (h : isCritical t = false) : stageStep s t = .ok s := by
  simp only [isCritical, Bool.or_eq_false_iff, beq_eq_false_iff_ne] at h
  unfold stageStep
  rw [if_neg h.1.1, if_neg h.1.2, if_neg h.2]

lemma filter_cons_ihdr (ts : List (List Nat)) :
    (dsSeenIHDR :: ts).filter isCritical = dsSeenIHDR :: ts.filter isCritical := rfl

lemma filter_cons_idat (ts : List (List Nat)) :
    (dsSeenIDAT :: ts).filter isCritical = dsSeenIDAT :: ts.filter isCritical := rfl

lemma filter_cons_iend (ts : List (List Nat)) :
    (dsSeenIEND :: ts).filter isCritical = dsSeenIEND :: ts.filter isCritical := rfl

lemma filter_cons_other {t : List Nat} (ts : List (List Nat))
    (h : isCritical t = false) :
    (t :: ts).filter isCritical = ts.filter isCritical := by
  rw [List.filter_cons, h]
  simp

lemma head_mismatch {a b : List Nat} {l1 l2 : List (List Nat)} {C : Prop}
    (hne : a ≠ b) (h : a :: l1 = b :: l2) : C := by
  have h1 := congrArg List.head? h
  simp only [List.head?_cons, Option.some.injEq] at h1
  exact absurd h1 hne

lemma ok_mismatch {α β : Type _} {x y : β} {C : Prop} (hne : x ≠ y)
    (h : (Except.ok x : Except α β) = Except.ok y) : C := by
  simp only [Except.ok.injEq] at h
  exact absurd h hne

lemma runStages_iend_ok : ∀ ts : List (List Nat),
    runStages ts dsSeenIEND = .ok dsSeenIEND ↔ ts.filter isCritical = [] := by
  intro ts
  induction ts with
  | nil => simp [runStages]
  | cons t ts ih =>
    by_cases h1 : t = dsSeenIHDR
    · subst h1
      rw [runStages_cons_err ts
        (show stageStep dsSeenIEND dsSeenIHDR = .error .chunkOrder from rfl),
        filter_cons_ihdr]
      constructor
      · intro h; exact Except.noConfusion h
      · intro h; exact List.noConfusion h
    · by_cases h2 : t = dsSeenIDAT
      · subst h2
        rw [runStages_cons_err ts
          (show stageStep dsSeenIEND dsSeenIDAT = .error .chunkOrder from rfl),
          filter_cons_idat]
        constructor
        · intro h; exact Except.noConfusion h
        · intro h; exact List.noConfusion h
      · by_cases h3 : t = dsSeenIEND
        · subst h3
          rw [runStages_cons_err ts
            (show stageStep dsSeenIEND dsSeenIEND = .error .chunkOrder from rfl),
            filter_cons_iend]
          constructor
          · intro h; exact Except.noConfusion h
          · intro h; exact List.noConfusion h
        · have hnc : isCritical t = false := by
            simp [isCritical, h1, h2, h3]
          rw [runStages_cons_ok ts (stageStep_other dsSeenIEND hnc),
            filter_cons_other ts hnc]
          exact ih

lemma runStages_idat_ok : ∀ ts : List (List Nat),
    runStages ts dsSeenIDAT = .ok dsSeenIEND ↔
      ∃ n, ts.filter isCritical =
        List.replicate n dsSeenIDAT ++ [dsSeenIEND] := by
  intro ts
  induction ts with
  | nil =>
    simp only [runStages, List.filter_nil]
    constructor
    · intro h
      exact ok_mismatch (by decide) h
    · intro ⟨n, hn⟩
      exact absurd (congrArg List.length hn) (by simp)
  | cons t ts ih =>
    by_cases h1 : t = dsSeenIHDR
    · subst h1
      rw [runStages_cons_err ts
        (show stageStep dsSeenIDAT dsSeenIHDR = .error .chunkOrder from rfl),
        filter_cons_ihdr]
      constructor
      · intro h; exact Except.noConfusion h
      · intro ⟨n, hn⟩
        cases n with
        | zero =>
          rw [List.replicate_zero, List.nil_append] at hn
          exact head_mismatch (by decide) hn
        | succ n =>
          rw [List.replicate_succ] at hn
          simp only [List.cons_append] at hn
          exact head_mismatch (by decide) hn
    · by_cases h2 : t = dsSeenIDAT
      · subst h2
        rw [runStages_cons_ok ts
          (show stageStep dsSeenIDAT dsSeenIDAT = .ok dsSeenIDAT from rfl),
          filter_cons_idat, ih]
        constructor
        · intro ⟨n, hn⟩
          exact ⟨n + 1, by simp [List.replicate_succ, hn]⟩
        · intro ⟨n, hn⟩
          cases n with
          | zero =>
            rw [List.replicate_zero, List.nil_append] at hn
            exact head_mismatch (by decide) hn
          | succ n =>
            rw [List.replicate_succ] at hn
            simp only [List.cons_append] at hn
            exact ⟨n, by have h2 := congrArg List.tail hn; simpa using h2⟩
      · by_cases h3 : t = dsSeenIEND
        · subst h3
          rw [runStages_cons_ok ts
            (show stageStep dsSeenIDAT dsSeenIEND = .ok dsSeenIEND from rfl),
            filter_cons_iend, runStages_iend_ok]
          constructor
          · intro h
            exact ⟨0, by simp [h]⟩
          · intro ⟨n, hn⟩
            cases n with
            | zero =>
              rw [List.replicate_zero, List.nil_append] at hn
              have h2 := congrArg List.tail hn
              simpa using h2
            | succ n =>
              rw [List.replicate_succ] at hn
              simp only [List.cons_append] at hn
              exact head_mismatch (by decide) hn
        · have hnc : isCritical t = false := by
            simp [isCritical, h1, h2, h3]
          rw [runStages_cons_ok ts (stageStep_other dsSeenIDAT hnc),
            filter_cons_other ts hnc]
          exact ih

lemma runStages_ihdr_ok : ∀ ts : List (List Nat),
    runStages ts dsSeenIHDR = .ok dsSeenIEND ↔
      ∃ n, ts.filter isCritical =
        List.replicate (n + 1) dsSeenIDAT ++ [dsSeenIEND] := by
  intro ts
  induction ts with
  | nil =>
    simp only [runStages, List.filter_nil]
    constructor
    · intro h
      exact ok_mismatch (by decide) h
    · intro ⟨n, hn⟩
      exact absurd (congrArg List.length hn) (by simp)
  | cons t ts ih =>
    by_cases h1 : t = dsSeenIHDR
    · subst h1
      rw [runStages_cons_err ts
        (show stageStep dsSeenIHDR dsSeenIHDR = .error .chunkOrder from rfl),
        filter_cons_ihdr]
      constructor
      · intro h; exact Except.noConfusion h
      · intro ⟨n, hn⟩
        rw [List.replicate_succ] at hn
        simp only [List.cons_append] at hn
        exact head_mismatch (by decide) hn
    · by_cases h2 : t = dsSeenIDAT
      · subst h2
        rw [runStages_cons_ok ts
          (show stageStep dsSeenIHDR dsSeenIDAT = .ok dsSeenIDAT from rfl),
          filter_cons_idat, runStages_idat_ok]
        constructor
        · intro ⟨n, hn⟩
          exact ⟨n, by simp [List.replicate_succ, hn]⟩
        · intro ⟨n, hn⟩
          rw [List.replicate_succ] at hn
          simp only [List.cons_append] at hn
          exact ⟨n, by have h2 := congrArg List.tail hn; simpa using h2⟩
      · by_cases h3 : t = dsSeenIEND
        · subst h3
          rw [runStages_cons_err ts
            (show stageStep dsSeenIHDR dsSeenIEND = .error .chunkOrder from rfl),
            filter_cons_iend]
          constructor
          · intro h; exact Except.noConfusion h
          · intro ⟨n, hn⟩
            rw [List.replicate_succ] at hn
            simp only [List.cons_append] at hn
            exact head_mismatch (by decide) hn
        · have hnc : isCritical t = false := by
            simp [isCritical, h1, h2, h3]
          rw [runStages_cons_ok ts (stageStep_other dsSeenIHDR hnc),
            filter_cons_other ts hnc]
          exact ih

lemma runStages_start_ok : ∀ ts : List (List Nat),
    runStages ts dsStart = .ok dsSeenIEND ↔
      ∃ n, ts.filter isCritical =
        dsSeenIHDR :: (List.replicate (n + 1) dsSeenIDAT ++ [dsSeenIEND]) := by
  intro ts
  induction ts with
  | nil =>
    simp only [runStages, List.filter_nil]
    constructor
    · intro h
      exact ok_mismatch (by decide) h
    · intro ⟨n, hn⟩
      exact List.noConfusion hn
  | cons t ts ih =>
    by_cases h1 : t = dsSeenIHDR
    · subst h1
      rw [runStages_cons_ok ts
        (show stageStep dsStart dsSeenIHDR = .ok dsSeenIHDR from rfl),
        filter_cons_ihdr, runStages_ihdr_ok]
      constructor
      · intro ⟨n, hn⟩
        exact ⟨n, by rw [hn]⟩
      · intro ⟨n, hn⟩
        exact ⟨n, by have h2 := congrArg List.tail hn; simpa using h2⟩
    · by_cases h2 : t = dsSeenIDAT
      · subst h2
        rw [runStages_cons_err ts
          (show stageStep dsStart dsSeenIDAT = .error .chunkOrder from rfl),
          filter_cons_idat]
        constructor
        · intro h; exact Except.noConfusion h
        · intro ⟨n, hn⟩
          exact head_mismatch (by decide) hn
      · by_cases h3 : t = dsSeenIEND
        · subst h3
          rw [runStages_cons_err ts
            (show stageStep dsStart dsSeenIEND = .error .chunkOrder from rfl),
            filter_cons_iend]
          constructor
          · intro h; exact Except.noConfusion h
          · intro ⟨n, hn⟩
            exact head_mismatch (by decide) hn
        · have hnc : isCritical t = false := by
            simp [isCritical, h1, h2, h3]
          rw [runStages_cons_ok ts (stageStep_other dsStart hnc),
            filter_cons_other ts hnc]
          exact ih

/-- C3: over the chunk types from index 1 onward, the `parseChunk` order
machine succeeds exactly when the subsequence of IHDR/IDAT/IEND-typed
chunks is one IHDR, then one or more IDATs, then one IEND; chunks of any
other type never change the stage; an IHDR outside the start stage, an
IDAT outside the IHDR/IDAT stages, and an IEND outside the IDAT stage each
fail with the chunk-order error; and finishing the list in a stage other
than IEND fails with the missing-IEND error. -/
theorem C3_parseChunk_order (ts : List (List Nat)) :
    (parseChunkOrder ts = .ok () ↔
      ∃ n, ts.filter isCritical =
        dsSeenIHDR :: (List.replicate (n + 1) dsSeenIDAT ++ [dsSeenIEND]))
    ∧ (∀ s, s ≠ dsStart → stageStep s dsSeenIHDR = .error .chunkOrder)
    ∧ (∀ s, s ≠ dsSeenIHDR → s ≠ dsSeenIDAT →
        stageStep s dsSeenIDAT = .error .chunkOrder)
    ∧ (∀ s, s ≠ dsSeenIDAT → stageStep s dsSeenIEND = .error .chunkOrder)
    ∧ (∀ s t, isCritical t = false → stageStep s t = .ok s)
    ∧ (∀ s, runStages ts dsStart = .ok s → s ≠ dsSeenIEND →
        parseChunkOrder ts = .error .missingIend) := by
  refine ⟨?_, ?_, ?_, ?_, ?_, ?_⟩
  · rw [← runStages_start_ok]
    unfold parseChunkOrder
    cases hr : runStages ts dsStart with
    | error e =>
      constructor
      · intro h; exact Except.noConfusion h
      · intro h; exact Except.noConfusion h
    | ok s =>
      show (if s ≠ dsSeenIEND then Except.error PErr.missingIend
        else Except.ok ()) = Except.ok () ↔
          Except.ok s = (Except.ok dsSeenIEND : Except PErr (List Nat))
      by_cases hs : s = dsSeenIEND
      · subst hs
        rw [if_neg (fun hne => hne rfl)]
        simp
      · rw [if_pos hs]
        constructor
        · intro h; exact Except.noConfusion h
        · intro h
          exact absurd (by injection h) hs
  · intro s hs
    unfold stageStep
    rw [if_pos rfl, if_pos hs]
  · intro s hs1 hs2
    unfold stageStep
    rw [if_neg (show ¬dsSeenIDAT = dsSeenIHDR by decide), if_pos rfl,
      if_pos ⟨hs1, hs2⟩]
  · intro s hs
    unfold stageStep
    rw [if_neg (show ¬dsSeenIEND = dsSeenIHDR by decide),
      if_neg (show ¬dsSeenIEND = dsSeenIDAT by decide), if_pos rfl,
      if_pos hs]
  · intro s t ht
    exact stageStep_other s ht
  · intro s hr hs
    unfold parseChunkOrder
    rw [hr]
    show (if s ≠ dsSeenIEND then Except.error PErr.missingIend
      else Except.ok ()) = Except.error PErr.missingIend
    rw [if_pos hs]

/-- Witness for C3: the canonical CgBI chunk sequence (IHDR, IDAT, IEND),
with an ancillary chunk in between, is accepted by the order machine. -/
theorem C3_witness :
    parseChunkOrder
        [dsSeenIHDR, [116, 69, 88, 116], dsSeenIDAT, dsSeenIEND] = .ok () :=
  (C3_parseChunk_order _).1.mpr ⟨0, by decide⟩

/-! Image carrier, decoder state and the IHDR header parser. -/

/-- Color types, as per the PNG spec (`ctGrayscale` .. `ctTrueColorAlpha`). -/
abbrev ctGrayscale : Nat := 0

/-- Truecolor color type. -/
abbrev ctTrueColor : Nat := 2

/-- Paletted color type. -/
abbrev ctPaletted : Nat := 3

/-- Grayscale+alpha color type. -/
abbrev ctGrayscaleAlpha : Nat := 4

/-- Truecolor+alpha color type. -/
abbrev ctTrueColorAlpha : Nat := 6

/-- Filter types, as per the PNG spec. -/
abbrev ftNone : Nat := 0

/-- Sub filter. -/
abbrev ftSub : Nat := 1

/-- Up filter. -/
abbrev ftUp : Nat := 2

/-- Average filter. -/
abbrev ftAverage : Nat := 3

/-- Paeth filter. -/
abbrev ftPaeth : Nat := 4

/-- Number of filter types. -/
abbrev nFilter : Nat := 5

/-- Interlace type: none. -/
abbrev itNone : Nat := 0

/-- Interlace type: Adam7. -/
abbrev itAdam7 : Nat := 1

/-- Required IHDR payload length. -/
abbrev iHDRLength : Nat := 13

/-- A stride-addressed pixel raster (`image.NRGBA` / `image.NRGBA64` with
`Rect.Min = (0, 0)`): `pix` is the flat byte buffer. -/
structure NRGBAimg where
  width : Nat
  height : Nat
  stride : Nat
  pix : List Nat
  deriving DecidableEq, Repr

/-- The only two raster kinds `readImagePass` allocates: `image.NRGBA`
(one byte per channel) for depths below 16, `image.NRGBA64` (two bytes per
channel) for depth 16. -/
inductive ImgModel where
  | nrgba : NRGBAimg → ImgModel
  | nrgba64 : NRGBAimg → ImgModel
  deriving DecidableEq, Repr

/-- `image.NewNRGBA(image.Rect(0, 0, w, h))`: zeroed buffer, stride `4*w`. -/
def newNRGBA (w h : Nat) : NRGBAimg :=
  ⟨w, h, 4 * w, List.replicate (4 * w * h) 0⟩

/-- `image.NewNRGBA64(image.Rect(0, 0, w, h))`: zeroed, stride `8*w`. -/
def newNRGBA64 (w h : Nat) : NRGBAimg :=
  ⟨w, h, 8 * w, List.replicate (8 * w * h) 0⟩

/-- The mutable fields of the `IpaPNG` decoder struct that the CgBI decode
path reads or writes (the reader, CRC hash and chunk list are threaded
separately in this embedding). -/
structure DecState where
  stage : List Nat
  isCgBI : Bool
  width : Nat
  height : Nat
  depth : Nat
  bitsPerPixel : Nat
  interlace : Nat
  colorType : Nat
  compressionMethod : Nat
  filterMethod : Nat
  idat : List Nat
  img : Option ImgModel
  deriving Repr

/-- The color-type/bit-depth compatibility check of `parseIHDR`'s switch
(`cb == cbValid`). -/
def cbOf (ct depth : Nat) : Bool :=
  if ct = 0 then -- ctGrayscale
    depth == 1 || depth == 2 || depth == 4 || depth == 8 || depth == 16
  else if ct = 2 then depth == 8 || depth == 16
  else if ct = 3 then depth == 1 || depth == 2 || depth == 4 || depth == 8
  else if ct = 4 then depth == 8 || depth == 16
  else if ct = 6 then depth == 8 || depth == 16
  else false

/-- The bits-per-pixel assignment of `parseIHDR`'s switch; `old` is the
decoder's previous value, kept when the color type matches no case. -/
def bppOf (ct depth old : Nat) : Nat :=
  if ct = 0 then depth -- ctGrayscale
  else if ct = 2 then depth * 3
  else if ct = 3 then depth
  else if ct = 4 then depth * 2
  else if ct = 6 then depth * 4
  else old

/-- Header parser (`parseIHDR`): checks the declared length is 13, width
and height (big-endian, bytes 0-3 and 4-7) are nonzero, the (depth, color
type) pair is valid, compression and filter bytes are zero and the
interlace byte is 0 or 1, each failure with its own error; on success the
decoder fields are updated.  Go mutates the fields progressively before a
later check may fail, but a failure aborts the whole decode, so only the
success-state is observable; the embedding assembles it at the end. -/
def parseIHDR (cgbi : DecState) (iHDR : GoChunk) : Except PErr DecState :=
  if iHDR.length ≠ iHDRLength then .error .invalidIHDRLength
  else
    let tmp := iHDR.data
    let w := beU32 (tmp.take 4)
    if w = 0 then .error .invalidWidth else
    let hgt := beU32 ((tmp.drop 4).take 4)
    if hgt = 0 then .error .invalidHeight else
    let depth := tmp.getD 8 0
    let ct := tmp.getD 9 0
    if cbOf ct depth = false then .error .invalidColorDepth else
    if tmp.getD 10 0 ≠ 0 then .error .invalidCompressionMethod else
    if tmp.getD 11 0 ≠ 0 then .error .invalidFilterMethod else
    if tmp.getD 12 0 ≠ 0 ∧ tmp.getD 12 0 ≠ 1 then
      .error .invalidInterlaceMethod
    else
      .ok { cgbi with
        width := w
        height := hgt
        depth := depth
        colorType := ct
        bitsPerPixel := bppOf ct depth cgbi.bitsPerPixel
        compressionMethod := tmp.getD 10 0
        filterMethod := tmp.getD 11 0
        interlace := tmp.getD 12 0 }

/-- The PNG-spec depth/color-type compatibility table, stated as the claim
words it (spec side of C5). -/
def specDepthValid (ct depth : Nat) : Prop :=
  (ct = 0 ∧ (depth = 1 ∨ depth = 2 ∨ depth = 4 ∨ depth = 8 ∨ depth = 16)) ∨
  (ct = 2 ∧ (depth = 8 ∨ depth = 16)) ∨
  (ct = 3 ∧ (depth = 1 ∨ depth = 2 ∨ depth = 4 ∨ depth = 8)) ∨
  (ct = 4 ∧ (depth = 8 ∨ depth = 16)) ∨
  (ct = 6 ∧ (depth = 8 ∨ depth = 16))

instance (ct depth : Nat) : Decidable (specDepthValid ct depth) := by
  unfold specDepthValid
  infer_instance

/-- Channel count implied by each color type (1, 3, 1, 2, 4). -/
def channels (ct : Nat) : Nat :=
  if ct = 0 then 1
  else if ct = 2 then 3
  else if ct = 3 then 1
  else if ct = 4 then 2
  else if ct = 6 then 4
  else 0

lemma cbOf_iff (ct depth : Nat) :
    cbOf ct depth = true ↔ specDepthValid ct depth := by
  unfold cbOf specDepthValid
  split_ifs <;> simp_all <;> omega

lemma bppOf_of_valid (ct depth old : Nat) (h : specDepthValid ct depth) :
    bppOf ct depth old = depth * channels ct := by
  unfold bppOf channels
  unfold specDepthValid at h
  split_ifs with h0 h2 h3 h4 h6 <;> omega

lemma parseIHDR_ok_char (s : DecState) (c : GoChunk)
    (h1 : c.length = 13)
    (h2 : beU32 (c.data.take 4) ≠ 0)
    (h3 : beU32 ((c.data.drop 4).take 4) ≠ 0)
    (h4 : cbOf (c.data.getD 9 0) (c.data.getD 8 0) = true)
    (h5 : c.data.getD 10 0 = 0)
    (h6 : c.data.getD 11 0 = 0)
    (h7 : c.data.getD 12 0 = 0 ∨ c.data.getD 12 0 = 1) :
    parseIHDR s c = .ok { s with
      width := beU32 (c.data.take 4)
      height := beU32 ((c.data.drop 4).take 4)
      depth := c.data.getD 8 0
      colorType := c.data.getD 9 0
      bitsPerPixel := bppOf (c.data.getD 9 0) (c.data.getD 8 0) s.bitsPerPixel
      compressionMethod := c.data.getD 10 0
      filterMethod := c.data.getD 11 0
      interlace := c.data.getD 12 0 } := by
  unfold parseIHDR
  rw [if_neg (fun hne => hne h1), if_neg h2, if_neg h3,
    if_neg (fun hf => Bool.noConfusion (h4.symm.trans hf)),
    if_neg (fun hne => hne h5), if_neg (fun hne => hne h6),
    if_neg (fun hand => h7.elim hand.1 hand.2)]

lemma parseIHDR_err_len (s : DecState) (c : GoChunk) (h1 : c.length ≠ 13) :
    parseIHDR s c = .error .invalidIHDRLength := by
  unfold parseIHDR
  rw [if_pos h1]

lemma parseIHDR_err_width (s : DecState) (c : GoChunk) (h1 : c.length = 13)
    (h2 : beU32 (c.data.take 4) = 0) :
    parseIHDR s c = .error .invalidWidth := by
  unfold parseIHDR
  rw [if_neg (fun hne => hne h1), if_pos h2]

lemma parseIHDR_err_height (s : DecState) (c : GoChunk) (h1 : c.length = 13)
    (h2 : beU32 (c.data.take 4) ≠ 0)
    (h3 : beU32 ((c.data.drop 4).take 4) = 0) :
    parseIHDR s c = .error .invalidHeight := by
  unfold parseIHDR
  rw [if_neg (fun hne => hne h1), if_neg h2, if_pos h3]

lemma parseIHDR_err_depth (s : DecState) (c : GoChunk) (h1 : c.length = 13)
    (h2 : beU32 (c.data.take 4) ≠ 0)
    (h3 : beU32 ((c.data.drop 4).take 4) ≠ 0)
    (h4 : cbOf (c.data.getD 9 0) (c.data.getD 8 0) = false) :
    parseIHDR s c = .error .invalidColorDepth := by
  unfold parseIHDR
  rw [if_neg (fun hne => hne h1), if_neg h2, if_neg h3, if_pos h4]

lemma parseIHDR_err_compression (s : DecState) (c : GoChunk)
    (h1 : c.length = 13) (h2 : beU32 (c.data.take 4) ≠ 0)
    (h3 : beU32 ((c.data.drop 4).take 4) ≠ 0)
    (h4 : cbOf (c.data.getD 9 0) (c.data.getD 8 0) = true)
    (h5 : c.data.getD 10 0 ≠ 0) :
    parseIHDR s c = .error .invalidCompressionMethod := by
  unfold parseIHDR
  rw [if_neg (fun hne => hne h1), if_neg h2, if_neg h3,
    if_neg (fun hf => Bool.noConfusion (h4.symm.trans hf)), if_pos h5]

lemma parseIHDR_err_filter (s : DecState) (c : GoChunk)
    (h1 : c.length = 13) (h2 : beU32 (c.data.take 4) ≠ 0)
    (h3 : beU32 ((c.data.drop 4).take 4) ≠ 0)
    (h4 : cbOf (c.data.getD 9 0) (c.data.getD 8 0) = true)
    (h5 : c.data.getD 10 0 = 0) (h6 : c.data.getD 11 0 ≠ 0) :
    parseIHDR s c = .error .invalidFilterMethod := by
  unfold parseIHDR
  rw [if_neg (fun hne => hne h1), if_neg h2, if_neg h3,
    if_neg (fun hf => Bool.noConfusion (h4.symm.trans hf)),
    if_neg (fun hne => hne h5), if_pos h6]

lemma parseIHDR_err_interlace (s : DecState) (c : GoChunk)
    (h1 : c.length = 13) (h2 : beU32 (c.data.take 4) ≠ 0)
    (h3 : beU32 ((c.data.drop 4).take 4) ≠ 0)
    (h4 : cbOf (c.data.getD 9 0) (c.data.getD 8 0) = true)
    (h5 : c.data.getD 10 0 = 0) (h6 : c.data.getD 11 0 = 0)
    (h7 : c.data.getD 12 0 ≠ 0) (h8 : c.data.getD 12 0 ≠ 1) :
    parseIHDR s c = .error .invalidInterlaceMethod := by
  unfold parseIHDR
  rw [if_neg (fun hne => hne h1), if_neg h2, if_neg h3,
    if_neg (fun hf => Bool.noConfusion (h4.symm.trans hf)),
    if_neg (fun hne => hne h5), if_neg (fun hne => hne h6),
    if_pos ⟨h7, h8⟩]

/-- C5: `parseIHDR` succeeds exactly when the declared length is 13, the
big-endian width and height are nonzero, the (depth, color type) pair is
in the PNG compatibility table, the compression and filter bytes are zero
and the interlace byte is 0 or 1; each violation fails with its specific
error, in source order; and on success bits-per-pixel equals depth times
the channel count implied by the color type. -/
theorem C5_parseIHDR (s : DecState) (c : GoChunk) :
    ((∃ s2, parseIHDR s c = .ok s2) ↔
      (c.length = 13 ∧ beU32 (c.data.take 4) ≠ 0 ∧
       beU32 ((c.data.drop 4).take 4) ≠ 0 ∧
       specDepthValid (c.data.getD 9 0) (c.data.getD 8 0) ∧
       c.data.getD 10 0 = 0 ∧ c.data.getD 11 0 = 0 ∧
       (c.data.getD 12 0 = 0 ∨ c.data.getD 12 0 = 1)))
    ∧ (c.length ≠ 13 → parseIHDR s c = .error .invalidIHDRLength)
    ∧ (c.length = 13 → beU32 (c.data.take 4) = 0 →
        parseIHDR s c = .error .invalidWidth)
    ∧ (c.length = 13 → beU32 (c.data.take 4) ≠ 0 →
        beU32 ((c.data.drop 4).take 4) = 0 →
        parseIHDR s c = .error .invalidHeight)
    ∧ (c.length = 13 → beU32 (c.data.take 4) ≠ 0 →
        beU32 ((c.data.drop 4).take 4) ≠ 0 →
        ¬specDepthValid (c.data.getD 9 0) (c.data.getD 8 0) →
        parseIHDR s c = .error .invalidColorDepth)
    ∧ (c.length = 13 → beU32 (c.data.take 4) ≠ 0 →
        beU32 ((c.data.drop 4).take 4) ≠ 0 →
        specDepthValid (c.data.getD 9 0) (c.data.getD 8 0) →
        c.data.getD 10 0 ≠ 0 →
        parseIHDR s c = .error .invalidCompressionMethod)
    ∧ (c.length = 13 → beU32 (c.data.take 4) ≠ 0 →
        beU32 ((c.data.drop 4).take 4) ≠ 0 →
        specDepthValid (c.data.getD 9 0) (c.data.getD 8 0) →
        c.data.getD 10 0 = 0 → c.data.getD 11 0 ≠ 0 →
        parseIHDR s c = .error .invalidFilterMethod)
    ∧ (c.length = 13 → beU32 (c.data.take 4) ≠ 0 →
        beU32 ((c.data.drop 4).take 4) ≠ 0 →
        specDepthValid (c.data.getD 9 0) (c.data.getD 8 0) →
        c.data.getD 10 0 = 0 → c.data.getD 11 0 = 0 →
        c.data.getD 12 0 ≠ 0 → c.data.getD 12 0 ≠ 1 →
        parseIHDR s c = .error .invalidInterlaceMethod)
    ∧ (∀ s2, parseIHDR s c = .ok s2 →
        s2.width = beU32 (c.data.take 4) ∧
        s2.height = beU32 ((c.data.drop 4).take 4) ∧
        s2.depth = c.data.getD 8 0 ∧ s2.colorType = c.data.getD 9 0 ∧
        s2.bitsPerPixel = s2.depth * channels s2.colorType ∧
        s2.compressionMethod = 0 ∧ s2.filterMethod = 0 ∧
        s2.interlace = c.data.getD 12 0) := by
  have hconds : (∃ s2, parseIHDR s c = .ok s2) ↔
      (c.length = 13 ∧ beU32 (c.data.take 4) ≠ 0 ∧
       beU32 ((c.data.drop 4).take 4) ≠ 0 ∧
       specDepthValid (c.data.getD 9 0) (c.data.getD 8 0) ∧
       c.data.getD 10 0 = 0 ∧ c.data.getD 11 0 = 0 ∧
       (c.data.getD 12 0 = 0 ∨ c.data.getD 12 0 = 1)) := by
    constructor
    · rintro ⟨s2, hok⟩
      by_cases h1 : c.length = 13
      · by_cases h2 : beU32 (c.data.take 4) = 0
        · rw [parseIHDR_err_width s c h1 h2] at hok
          exact Except.noConfusion hok
        · by_cases h3 : beU32 ((c.data.drop 4).take 4) = 0
          · rw [parseIHDR_err_height s c h1 h2 h3] at hok
            exact Except.noConfusion hok
          · by_cases h4 : cbOf (c.data.getD 9 0) (c.data.getD 8 0) = true
            · by_cases h5 : c.data.getD 10 0 = 0
              · by_cases h6 : c.data.getD 11 0 = 0
                · by_cases h7 : c.data.getD 12 0 = 0
                  · exact ⟨h1, h2, h3, (cbOf_iff _ _).mp h4, h5, h6, Or.inl h7⟩
                  · by_cases h8 : c.data.getD 12 0 = 1
                    · exact ⟨h1, h2, h3, (cbOf_iff _ _).mp h4, h5, h6,
                        Or.inr h8⟩
                    · rw [parseIHDR_err_interlace s c h1 h2 h3 h4 h5 h6
                        h7 h8] at hok
                      exact Except.noConfusion hok
                · rw [parseIHDR_err_filter s c h1 h2 h3 h4 h5 h6] at hok
                  exact Except.noConfusion hok
              · rw [parseIHDR_err_compression s c h1 h2 h3 h4 h5] at hok
                exact Except.noConfusion hok
            · rw [parseIHDR_err_depth s c h1 h2 h3
                (Bool.eq_false_iff.mpr h4)] at hok
              exact Except.noConfusion hok
      · rw [parseIHDR_err_len s c h1] at hok
        exact Except.noConfusion hok
    · rintro ⟨h1, h2, h3, h4, h5, h6, h7⟩
      exact ⟨_, parseIHDR_ok_char s c h1 h2 h3 ((cbOf_iff _ _).mpr h4)
        h5 h6 h7⟩
  refine ⟨hconds, fun h1 => parseIHDR_err_len s c h1,
    fun h1 h2 => parseIHDR_err_width s c h1 h2,
    fun h1 h2 h3 => parseIHDR_err_height s c h1 h2 h3,
    fun h1 h2 h3 h4 => parseIHDR_err_depth s c h1 h2 h3
      (Bool.eq_false_iff.mpr (fun ht => h4 ((cbOf_iff _ _).mp ht))),
    fun h1 h2 h3 h4 h5 => parseIHDR_err_compression s c h1 h2 h3
      ((cbOf_iff _ _).mpr h4) h5,
    fun h1 h2 h3 h4 h5 h6 => parseIHDR_err_filter s c h1 h2 h3
      ((cbOf_iff _ _).mpr h4) h5 h6,
    fun h1 h2 h3 h4 h5 h6 h7 h8 => parseIHDR_err_interlace s c h1 h2 h3
      ((cbOf_iff _ _).mpr h4) h5 h6 h7 h8, ?_⟩
  intro s2 hok
  have hc := hconds.mp ⟨s2, hok⟩
  obtain ⟨h1, h2, h3, h4, h5, h6, h7⟩ := hc
  rw [parseIHDR_ok_char s c h1 h2 h3 ((cbOf_iff _ _).mpr h4) h5 h6 h7]
    at hok
  simp only [Except.ok.injEq] at hok
  subst hok
  refine ⟨rfl, rfl, rfl, rfl, ?_, h5, h6, rfl⟩
  exact bppOf_of_valid _ _ _ h4

/-- Witness for C5 at a concrete valid IHDR chunk (2×2, depth 8,
truecolor+alpha, non-interlaced): `parseIHDR` succeeds. -/
theorem C5_witness :
    ∃ s2,
      parseIHDR
        ⟨dsStart, false, 0, 0, 0, 0, 0, 0, 0, 0, [], none⟩
        ⟨13, dsSeenIHDR, [0, 0, 0, 2, 0, 0, 0, 2, 8, 6, 0, 0, 0], 0⟩ =
        .ok s2 :=
  (C5_parseIHDR _ _).1.mpr (by refine ⟨rfl, ?_, ?_, ?_, rfl, rfl, Or.inl rfl⟩ <;> decide)

/-! Adam7 interlace geometry. -/

/-- Placement and size of one Adam7 pass (`interlaceScan`). -/
structure interlaceScan where
  xFactor : Nat
  yFactor : Nat
  xOffset : Nat
  yOffset : Nat
  deriving DecidableEq, Repr

/-- The seven Adam7 passes (`interlacing`). -/
def interlacing : List interlaceScan :=
  [⟨8, 8, 0, 0⟩, ⟨8, 8, 4, 0⟩, ⟨4, 8, 0, 4⟩, ⟨4, 4, 2, 0⟩,
   ⟨2, 4, 0, 2⟩, ⟨2, 2, 1, 0⟩, ⟨1, 2, 0, 1⟩]

/-- The pass record `interlacing[pass]`. -/
def ipass (p : Fin 7) : interlaceScan :=
  interlacing.get ⟨p.1, p.2⟩

/-- Pass-local width of an interlaced pass, as `readImagePass` computes it:
Go's `(width - p.xOffset + p.xFactor - 1) / p.xFactor` on signed ints with
truncating division. -/
def passWidth (w : Nat) (p : Fin 7) : Nat :=
  (((w : Int) - (ipass p).xOffset + (ipass p).xFactor - 1).tdiv
    ((ipass p).xFactor : Int)).toNat

/-- Pass-local height of an interlaced pass, as `readImagePass` computes
it. -/
def passHeight (h : Nat) (p : Fin 7) : Nat :=
  (((h : Int) - (ipass p).yOffset + (ipass p).yFactor - 1).tdiv
    ((ipass p).yFactor : Int)).toNat

/-- Destination byte offset `mergePassInto` writes for source pixel (x, y)
of pass `p`, with destination `Rect.Min = (0, 0)`:
`dBase + x*xFactor*bytesPerPixel` where
`dBase = (y*yFactor + yOffset)*stride + xOffset*bytesPerPixel`. -/
def mergeOffset (p : Fin 7) (stride bpp x y : Nat) : Nat :=
  ((y * (ipass p).yFactor + (ipass p).yOffset) * stride +
    (ipass p).xOffset * bpp) + x * (ipass p).xFactor * bpp

lemma ipass_pos (p : Fin 7) :
    0 < (ipass p).xFactor ∧ (ipass p).xOffset < (ipass p).xFactor ∧
    (ipass p).xFactor ∣ 8 ∧ 0 < (ipass p).yFactor ∧
    (ipass p).yOffset < (ipass p).yFactor ∧ (ipass p).yFactor ∣ 8 := by
  fin_cases p <;> decide

lemma tdiv_ceil_eq (w xO xF : Nat) (hxF : 0 < xF) (hxO : xO < xF) :
    (((w : Int) - xO + xF - 1).tdiv (xF : Int)).toNat =
      (w - xO + xF - 1) / xF := by
  rcases le_or_lt xO w with hle | hlt
  · have hcast : ((w : Int) - xO + xF - 1) = ((w - xO + xF - 1 : Nat) : Int) := by
      omega
    rw [hcast, Int.tdiv_eq_ediv (by positivity) (by positivity)]
    rfl
  · have hcast : ((w : Int) - xO + xF - 1) =
        ((xF - 1 - (xO - w) : Nat) : Int) := by
      omega
    rw [hcast, Int.tdiv_eq_ediv (by positivity) (by positivity)]
    have h1 : (xF - 1 - (xO - w)) / xF = 0 := Nat.div_eq_of_lt (by omega)
    have h2 : (w - xO + xF - 1) / xF = 0 := Nat.div_eq_of_lt (by omega)
    show ((xF - 1 - (xO - w)) / xF : Nat) = _
    rw [h1, h2]

lemma passWidth_eq (w : Nat) (p : Fin 7) :
    passWidth w p =
      (w - (ipass p).xOffset + (ipass p).xFactor - 1) / (ipass p).xFactor :=
  tdiv_ceil_eq w _ _ (ipass_pos p).1 (ipass_pos p).2.1

lemma passHeight_eq (h : Nat) (p : Fin 7) :
    passHeight h p =
      (h - (ipass p).yOffset + (ipass p).yFactor - 1) / (ipass p).yFactor :=
  tdiv_ceil_eq h _ _ (ipass_pos p).2.2.2.1 (ipass_pos p).2.2.2.2.1

lemma lt_ceil_of (x' xF xO w : Nat) (hxF : 0 < xF)
    (h : x' * xF + xO < w) : x' < (w - xO + xF - 1) / xF := by
  have h1 : (x' + 1) * xF ≤ w - xO + xF - 1 := by
    rw [Nat.succ_mul]
    omega
  have h2 := (Nat.le_div_iff_mul_le hxF).mpr h1
  omega

lemma adam7_residues : ∀ a, a < 8 → ∀ b, b < 8 →
    ∃ p : Fin 7, (a % (ipass p).xFactor = (ipass p).xOffset ∧
      b % (ipass p).yFactor = (ipass p).yOffset) ∧
      ∀ q : Fin 7, (a % (ipass q).xFactor = (ipass q).xOffset ∧
        b % (ipass q).yFactor = (ipass q).yOffset) → q = p := by
  decide

lemma covered_iff_mod (p : Fin 7) (x y : Nat) :
    ((∃ x', x = x' * (ipass p).xFactor + (ipass p).xOffset) ↔
      x % (ipass p).xFactor = (ipass p).xOffset) ∧
    ((∃ y', y = y' * (ipass p).yFactor + (ipass p).yOffset) ↔
      y % (ipass p).yFactor = (ipass p).yOffset) := by
  obtain ⟨hxF, hxO, _, hyF, hyO, _⟩ := ipass_pos p
  constructor
  · constructor
    · rintro ⟨x', rfl⟩
      rw [Nat.mul_comm, Nat.mul_add_mod]
      exact Nat.mod_eq_of_lt hxO
    · intro hm
      refine ⟨x / (ipass p).xFactor, ?_⟩
      have hdm := Nat.div_add_mod x (ipass p).xFactor
      rw [Nat.mul_comm]
      omega
  · constructor
    · rintro ⟨y', rfl⟩
      rw [Nat.mul_comm, Nat.mul_add_mod]
      exact Nat.mod_eq_of_lt hyO
    · intro hm
      refine ⟨y / (ipass p).yFactor, ?_⟩
      have hdm := Nat.div_add_mod y (ipass p).yFactor
      rw [Nat.mul_comm]
      omega

/-- C6: for every pixel position of a width×height grid there is exactly
one pass and pass-local coordinate pair that produces it through the Adam7
geometry, and the destination byte offset `mergePassInto` computes for
that triple (with an NRGBA destination of stride `4*w`) is exactly the
pixel's own byte offset — so the seven merges write every grid position
exactly once. -/
theorem C6_adam7_partition (w h x y : Nat) (hx : x < w) (hy : y < h) :
    ∃! t : Fin 7 × Nat × Nat,
      t.2.1 < passWidth w t.1 ∧ t.2.2 < passHeight h t.1 ∧
      x = t.2.1 * (ipass t.1).xFactor + (ipass t.1).xOffset ∧
      y = t.2.2 * (ipass t.1).yFactor + (ipass t.1).yOffset ∧
      mergeOffset t.1 (4 * w) 4 t.2.1 t.2.2 = (y * w + x) * 4 := by
  have h8 : (8 : Nat) ≠ 0 := by decide
  obtain ⟨p, ⟨hpx, hpy⟩, hpu⟩ :=
    adam7_residues (x % 8) (Nat.mod_lt x (by decide)) (y % 8)
      (Nat.mod_lt y (by decide))
  obtain ⟨hxF, hxO, hdx, hyF, hyO, hdy⟩ := ipass_pos p
  rw [Nat.mod_mod_of_dvd x hdx] at hpx
  rw [Nat.mod_mod_of_dvd y hdy] at hpy
  obtain ⟨x', hx'⟩ := ((covered_iff_mod p x y).1).mpr hpx
  obtain ⟨y', hy'⟩ := ((covered_iff_mod p x y).2).mpr hpy
  refine ⟨(p, x', y'), ⟨?_, ?_, ?_, ?_, ?_⟩, ?_⟩
  · show x' < passWidth w p
    rw [passWidth_eq]
    exact lt_ceil_of x' _ _ w hxF (by omega)
  · show y' < passHeight h p
    rw [passHeight_eq]
    exact lt_ceil_of y' _ _ h hyF (by omega)
  · exact hx'
  · exact hy'
  · show mergeOffset p (4 * w) 4 x' y' = (y * w + x) * 4
    unfold mergeOffset
    rw [hx', hy']
    ring
  · rintro ⟨q, x2, y2⟩ ⟨hb1, hb2, he1, he2, _⟩
    replace he1 : x = x2 * (ipass q).xFactor + (ipass q).xOffset := he1
    replace he2 : y = y2 * (ipass q).yFactor + (ipass q).yOffset := he2
    obtain ⟨hxFq, hxOq, hdxq, hyFq, hyOq, hdyq⟩ := ipass_pos q
    have hq : q = p := by
      apply hpu
      constructor
      · rw [Nat.mod_mod_of_dvd x hdxq, he1, Nat.mul_comm, Nat.mul_add_mod]
        exact Nat.mod_eq_of_lt hxOq
      · rw [Nat.mod_mod_of_dvd y hdyq, he2, Nat.mul_comm, Nat.mul_add_mod]
        exact Nat.mod_eq_of_lt hyOq
    subst hq
    have hx2 : x2 = x' := by
      have : x2 * (ipass q).xFactor = x' * (ipass q).xFactor := by omega
      exact Nat.eq_of_mul_eq_mul_right hxFq this
    have hy2 : y2 = y' := by
      have : y2 * (ipass q).yFactor = y' * (ipass q).yFactor := by omega
      exact Nat.eq_of_mul_eq_mul_right hyFq this
    rw [hx2, hy2]

/-- Witness for C6 at the concrete grid position (1, 1) of a 2×2 image:
the unique writer is pass 7 at pass-local (1, 0). -/
theorem C6_witness :
    ∃! t : Fin 7 × Nat × Nat,
      t.2.1 < passWidth 2 t.1 ∧ t.2.2 < passHeight 2 t.1 ∧
      1 = t.2.1 * (ipass t.1).xFactor + (ipass t.1).xOffset ∧
      1 = t.2.2 * (ipass t.1).yFactor + (ipass t.1).yOffset ∧
      mergeOffset t.1 (4 * 2) 4 t.2.1 t.2.2 = (1 * 2 + 1) * 4 :=
  C6_adam7_partition 2 2 1 1 (by decide) (by decide)

/-! Bounds analysis of the depth-8 channel-swap loop of `readImagePass`
(`for x := 0; x < width*4; x += 4 { cDat[x], cDat[x+2] = ... }`). -/

/-- The `cDat` indices the depth-8 swap loop touches: `x` and `x+2` for
`x = 0, 4, ..., width*4 - 4`. -/
def depth8SwapAccesses (width : Nat) : List Nat :=
  (List.range width).flatMap (fun px => [4 * px, 4 * px + 2])

/-- Whether some access of the depth-8 swap loop falls outside the
unfiltered row buffer `cDat`, whose length is `(bpp*width + 7)/8`
(`rowSize - 1`) — in Go, a runtime index panic. -/
def depth8SwapAccessOOB (bpp width : Nat) : Bool :=
  (depth8SwapAccesses width).any (fun i => decide ((bpp * width + 7) / 8 ≤ i))

lemma depth8OOB_iff (bpp width : Nat) :
    depth8SwapAccessOOB bpp width = true ↔
      ∃ px, px < width ∧ (bpp * width + 7) / 8 ≤ 4 * px + 2 := by
  unfold depth8SwapAccessOOB depth8SwapAccesses
  rw [List.any_eq_true]
  constructor
  · rintro ⟨i, hmem, hdec⟩
    rw [List.mem_flatMap] at hmem
    obtain ⟨px, hpx, hi⟩ := hmem
    rw [List.mem_range] at hpx
    rw [decide_eq_true_eq] at hdec
    refine ⟨px, hpx, ?_⟩
    simp only [List.mem_cons, List.mem_singleton, List.not_mem_nil,
      or_false] at hi
    rcases hi with hi | hi <;> omega
  · rintro ⟨px, hpx, hle⟩
    refine ⟨4 * px + 2, ?_, ?_⟩
    · rw [List.mem_flatMap]
      exact ⟨px, List.mem_range.mpr hpx, by simp⟩
    · rw [decide_eq_true_eq]
      exact hle

/-- Counterexample to C2 as stated: for bit depth 8 with color type
truecolor (bits-per-pixel 24, a color type other than truecolor+alpha) at
width 1, no access of the depth-8 swap loop is out of bounds — the loop
reads indices 0 and 2 of the 3-byte row — contradicting the claim that
every width at least 1 overruns for these color types and that the branch
stays in bounds only when bits-per-pixel is 32. -/
theorem C2_counterexample :
    depth8SwapAccessOOB (8 * channels ctTrueColor) 1 = false := by
  decide

/-- C2 (amended): at bit depth 8, the swap loop overruns `cDat` for
grayscale, paletted and grayscale+alpha at every width at least 1; for
truecolor it overruns exactly when the width is at least 2; for
truecolor+alpha (bits-per-pixel 32) it never overruns. -/
theorem C2_depth8_oob (width : Nat) (hw : 1 ≤ width) :
    (∀ ct, ct = ctGrayscale ∨ ct = ctPaletted ∨ ct = ctGrayscaleAlpha →
      depth8SwapAccessOOB (8 * channels ct) width = true)
    ∧ (depth8SwapAccessOOB (8 * channels ctTrueColor) width = true ↔
        2 ≤ width)
    ∧ depth8SwapAccessOOB (8 * channels ctTrueColorAlpha) width = false := by
  refine ⟨?_, ?_, ?_⟩
  · intro ct hct
    rw [depth8OOB_iff]
    refine ⟨width - 1, by omega, ?_⟩
    rcases hct with rfl | rfl | rfl
    · have hch : channels ctGrayscale = 1 := rfl
      rw [hch]
      omega
    · have hch : channels ctPaletted = 1 := rfl
      rw [hch]
      omega
    · have hch : channels ctGrayscaleAlpha = 2 := rfl
      rw [hch]
      omega
  · rw [depth8OOB_iff]
    have hch : channels ctTrueColor = 3 := rfl
    rw [hch]
    constructor
    · rintro ⟨px, hpx, hle⟩
      omega
    · intro h2
      exact ⟨width - 1, by omega, by omega⟩
  · have hch : channels ctTrueColorAlpha = 4 := rfl
    rw [hch]
    rw [Bool.eq_false_iff]
    intro htrue
    rw [depth8OOB_iff] at htrue
    obtain ⟨px, hpx, hle⟩ := htrue
    omega

/-- Witness for C2 (amended) at width 1: grayscale overruns, truecolor
does not (the iff with `2 ≤ 1` is false on both sides), and
truecolor+alpha does not. -/
theorem C2_witness :
    depth8SwapAccessOOB (8 * channels ctGrayscale) 1 = true ∧
    (depth8SwapAccessOOB (8 * channels ctTrueColor) 1 = true ↔ 2 ≤ 1) ∧
    depth8SwapAccessOOB (8 * channels ctTrueColorAlpha) 1 = false :=
  ⟨(C2_depth8_oob 1 (by decide)).1 ctGrayscale (Or.inl rfl),
   (C2_depth8_oob 1 (by decide)).2.1,
   (C2_depth8_oob 1 (by decide)).2.2⟩

/-! The scanline reader `readImagePass`: filter reversal, per-depth pixel
unpacking, and the row loop. -/

/-- Go's `copy(dst[off:], src)`: copies `min(src.length, dst.length - off)`
bytes of `src` to positions `off, off+1, ...`; `dst` keeps its length. -/
def copyList (dst : List Nat) (off : Nat) (src : List Nat) : List Nat :=
  dst.take off ++ src.take (dst.length - off) ++
    dst.drop (off + min src.length (dst.length - off))

/-- The in-place parallel swap of the depth-8 branch:
`cDat[x], cDat[x+2] = cDat[x+2], cDat[x]` stepping `x` by 4 while
`x < stop`. -/
def swapBRAux (l : List Nat) (x stop : Nat) : List Nat :=
  if x < stop then
    swapBRAux ((l.set x (l.getD (x + 2) 0)).set (x + 2) (l.getD x 0))
      (x + 4) stop
  else l
termination_by stop - x
decreasing_by omega

/-- Filter reversal, Sub: `cDat[i] += cDat[i-bpp]` for `i` from `bpp` up
(uint8 wraparound). -/
def filterSubRev (a : List Nat) (bpp i : Nat) : List Nat :=
  if i < a.length then
    filterSubRev (a.set i ((a.getD i 0 + a.getD (i - bpp) 0) % 256)) bpp
      (i + 1)
  else a
termination_by a.length - i
decreasing_by simp only [List.length_set]; omega

/-- Filter reversal, Average, first `bpp` bytes: `cDat[i] += pDat[i]/2`. -/
def filterAvgFirst (a pDat : List Nat) (bpp i : Nat) : List Nat :=
  if i < bpp then
    filterAvgFirst (a.set i ((a.getD i 0 + pDat.getD i 0 / 2) % 256)) pDat
      bpp (i + 1)
  else a
termination_by bpp - i
decreasing_by omega

/-- Filter reversal, Average, remaining bytes:
`cDat[i] += uint8((int(cDat[i-bpp]) + int(pDat[i])) / 2)`. -/
def filterAvgRest (a pDat : List Nat) (bpp i : Nat) : List Nat :=
  if i < a.length then
    filterAvgRest
      (a.set i ((a.getD i 0 + (a.getD (i - bpp) 0 + pDat.getD i 0) / 2 % 256)
        % 256)) pDat bpp (i + 1)
  else a
termination_by a.length - i
decreasing_by simp only [List.length_set]; omega

/-- Filter reversal, Average. -/
def filterAvgRev (a pDat : List Nat) (bpp : Nat) : List Nat :=
  filterAvgRest (filterAvgFirst a pDat bpp 0) pDat bpp bpp

/-- Modelled from the spec: the Paeth predictor of the package's
`filterPaeth` (its source file is not among the provided sources) — picks
whichever of left/up/upLeft is numerically closest to
`left + up - upLeft`, ties broken in order left, up, upLeft. -/
def paethPredictor (a b c : Nat) : Nat :=
  let p : Int := (a : Int) + (b : Int) - (c : Int)
  let pa := (p - a).natAbs
  let pb := (p - b).natAbs
  let pc := (p - c).natAbs
  if pa ≤ pb ∧ pa ≤ pc then a else if pb ≤ pc then b else c

/-- Modelled from the spec: `filterPaeth(cDat, pDat, bytesPerPixel)` —
`cur[i] += paethPredictor(left, up, upLeft)` with left/upLeft zero for
`i < bpp` (uint8 wraparound). -/
def filterPaethRev (a pDat : List Nat) (bpp i : Nat) : List Nat :=
  if i < a.length then
    let left := if bpp ≤ i then a.getD (i - bpp) 0 else 0
    let upLeft := if bpp ≤ i then pDat.getD (i - bpp) 0 else 0
    filterPaethRev
      (a.set i ((a.getD i 0 + paethPredictor left (pDat.getD i 0) upLeft)
        % 256)) pDat bpp (i + 1)
  else a
termination_by a.length - i
decreasing_by simp only [List.length_set]; omega

/-- The per-row filter reversal of `readImagePass` (`switch cr[0]`):
returns the reconstructed row bytes or the bad-filter-type error. -/
def unfilterRow (ft : Nat) (cDat pDat : List Nat) (bpp : Nat) :
    Except PErr (List Nat) :=
  if ft = ftNone then .ok cDat
  else if ft = ftSub then .ok (filterSubRev cDat bpp bpp)
  else if ft = ftUp then
    .ok (List.zipWith (fun c p => (c + p) % 256) cDat pDat)
  else if ft = ftAverage then .ok (filterAvgRev cDat pDat bpp)
  else if ft = ftPaeth then .ok (filterPaethRev cDat pDat bpp 0)
  else .error .badFilterType

/-- `image.NRGBA.SetNRGBA`: four bytes at `y*stride + x*4`; like Go, a
coordinate outside the rectangle is ignored. -/
def NRGBAimg.setNRGBA (im : NRGBAimg) (x y r g b a : Nat) : NRGBAimg :=
  if x < im.width ∧ y < im.height then
    let off := y * im.stride + x * 4
    { im with
      pix := (((im.pix.set off r).set (off + 1) g).set (off + 2) b).set
        (off + 3) a }
  else im

/-- `image.NRGBA64.SetNRGBA64`: eight big-endian bytes at `y*stride + x*8`;
out-of-rectangle coordinates are ignored. -/
def NRGBAimg.setNRGBA64 (im : NRGBAimg) (x y r g b a : Nat) : NRGBAimg :=
  if x < im.width ∧ y < im.height then
    let off := y * im.stride + x * 8
    { im with
      pix := (((((((im.pix.set off (r / 256)).set (off + 1) (r % 256)).set
        (off + 2) (g / 256)).set (off + 3) (g % 256)).set
        (off + 4) (b / 256)).set (off + 5) (b % 256)).set
        (off + 6) (a / 256)).set (off + 7) (a % 256) }
  else im

/-- Depth-1 unpacking, inner loop: up to 8 pixels from bit-packed byte
`b`, MSB first (`yCol = (b >> 7) * 0xff`, then `b <<= 1`). -/
def unpack1Inner (im : NRGBAimg) (y width x b x2 : Nat) : NRGBAimg :=
  if x2 < 8 ∧ x + x2 < width then
    let yCol := (b >>> 7) * 255
    unpack1Inner (im.setNRGBA (x + x2) y yCol yCol yCol 255) y width x
      ((b <<< 1) % 256) (x2 + 1)
  else im
termination_by 8 - x2
decreasing_by omega

/-- Depth-1 unpacking, outer loop over bytes (`x += 8`). -/
def unpack1Outer (im : NRGBAimg) (y width : Nat) (cDat : List Nat)
    (x : Nat) : NRGBAimg :=
  if x < width then
    unpack1Outer (unpack1Inner im y width x (cDat.getD (x / 8) 0) 0) y width
      cDat (x + 8)
  else im
termination_by width - x
decreasing_by omega

/-- Depth-2 unpacking, inner loop: up to 4 pixels per byte
(`ycol = (b >> 6) * 0x55`, then `b <<= 2`). -/
def unpack2Inner (im : NRGBAimg) (y width x b x2 : Nat) : NRGBAimg :=
  if x2 < 4 ∧ x + x2 < width then
    let yCol := (b >>> 6) * 85
    unpack2Inner (im.setNRGBA (x + x2) y yCol yCol yCol 255) y width x
      ((b <<< 2) % 256) (x2 + 1)
  else im
termination_by 4 - x2
decreasing_by omega

/-- Depth-2 unpacking, outer loop (`x += 4`). -/
def unpack2Outer (im : NRGBAimg) (y width : Nat) (cDat : List Nat)
    (x : Nat) : NRGBAimg :=
  if x < width then
    unpack2Outer (unpack2Inner im y width x (cDat.getD (x / 4) 0) 0) y width
      cDat (x + 4)
  else im
termination_by width - x
decreasing_by omega

/-- Depth-4 unpacking, inner loop: up to 2 pixels per byte
(`ycol = (b >> 4) * 0x11`, then `b <<= 4`). -/
def unpack4Inner (im : NRGBAimg) (y width x b x2 : Nat) : NRGBAimg :=
  if x2 < 2 ∧ x + x2 < width then
    let yCol := (b >>> 4) * 17
    unpack4Inner (im.setNRGBA (x + x2) y yCol yCol yCol 255) y width x
      ((b <<< 4) % 256) (x2 + 1)
  else im
termination_by 2 - x2
decreasing_by omega

/-- Depth-4 unpacking, outer loop (`x += 2`). -/
def unpack4Outer (im : NRGBAimg) (y width : Nat) (cDat : List Nat)
    (x : Nat) : NRGBAimg :=
  if x < width then
    unpack4Outer (unpack4Inner im y width x (cDat.getD (x / 2) 0) 0) y width
      cDat (x + 2)
  else im
termination_by width - x
decreasing_by omega

/-- Depth-16 unpacking: 8 bytes per pixel, channel order B,G,R,A in the
row, written as NRGBA64 (R,G,B,A big-endian 16-bit). -/
def unpack16 (im : NRGBAimg) (y width : Nat) (cDat : List Nat)
    (x : Nat) : NRGBAimg :=
  if x < width then
    let bCol := cDat.getD (8 * x) 0 * 256 + cDat.getD (8 * x + 1) 0
    let gCol := cDat.getD (8 * x + 2) 0 * 256 + cDat.getD (8 * x + 3) 0
    let rCol := cDat.getD (8 * x + 4) 0 * 256 + cDat.getD (8 * x + 5) 0
    let aCol := cDat.getD (8 * x + 6) 0 * 256 + cDat.getD (8 * x + 7) 0
    unpack16 (im.setNRGBA64 x y rCol gCol bCol aCol) y width cDat (x + 1)
  else im
termination_by width - x
decreasing_by omega

/-- Per-depth pixel unpacking (the `switch cgbi.depth` of
`readImagePass`): returns the updated image, the row as the loop leaves it
(the depth-8 branch swaps B and R in place before copying the row at
`pixOffset`), and the updated `pixOffset` (advanced by the stride only in
the depth-8 branch).  The allocation step pairs NRGBA with depths below 16
and NRGBA64 with depth 16, so each branch only ever sees its own carrier;
a mismatched pairing (Go would have a nil `nRgba`) leaves the image
unchanged. -/
def unpackRow (depth width y pixOffset : Nat) (img : ImgModel)
    (cDat : List Nat) : ImgModel × List Nat × Nat :=
  match img with
  | .nrgba im =>
    if depth = 1 then
      (.nrgba (unpack1Outer im y width cDat 0), cDat, pixOffset)
    else if depth = 2 then
      (.nrgba (unpack2Outer im y width cDat 0), cDat, pixOffset)
    else if depth = 4 then
      (.nrgba (unpack4Outer im y width cDat 0), cDat, pixOffset)
    else if depth = 8 then
      let swapped := swapBRAux cDat 0 (width * 4)
      (.nrgba { im with pix := copyList im.pix pixOffset swapped },
        swapped, pixOffset + im.stride)
    else (.nrgba im, cDat, pixOffset)
  | .nrgba64 im =>
    if depth = 16 then
      (.nrgba64 (unpack16 im y width cDat 0), cDat, pixOffset)
    else (.nrgba64 im, cDat, pixOffset)

/-- The scanline loop of `readImagePass`: per row, read exactly `rowSize`
bytes (insufficient-pixel-data error on a short stream), reverse the
filter named by byte 0 against the previous reconstructed row, unpack, and
thread the row buffer (as the unpack branch left it) as the next previous
row.  `n` counts the remaining rows, `y` is the current row index. -/
def passLoop (depth width rowSize bytesPerPixel : Nat) :
    Nat → Nat → List Nat → List Nat → ImgModel → Nat →
    Except PErr (ImgModel × List Nat)
  | 0, _, stream, _, img, _ => .ok (img, stream)
  | n + 1, y, stream, prevDat, img, pixOffset =>
    if stream.length < rowSize then .error .insufficientPixelData
    else
      let cr := stream.take rowSize
      match unfilterRow (cr.getD 0 0) (cr.drop 1) prevDat bytesPerPixel with
      | .error e => .error e
      | .ok cDat =>
        let r := unpackRow depth width y pixOffset img cDat
        passLoop depth width rowSize bytesPerPixel n (y + 1)
          (stream.drop rowSize) r.2.1 r.1 r.2.2

/-- The pass-local width `readImagePass` uses: the ceiling-division pass
geometry for an interlaced non-allocate call, the full width otherwise. -/
def usedWidth (st : DecState) (pass : Fin 7) (allocateOnly : Bool) : Nat :=
  if st.interlace = itAdam7 ∧ allocateOnly = false then
    passWidth st.width pass
  else st.width

/-- The pass-local height `readImagePass` uses. -/
def usedHeight (st : DecState) (pass : Fin 7) (allocateOnly : Bool) : Nat :=
  if st.interlace = itAdam7 ∧ allocateOnly = false then
    passHeight st.height pass
  else st.height

/-- `readImagePass`: size the pass (for an interlaced non-allocate call a
zero pass dimension returns no image and reads nothing, not even a filter
byte), allocate NRGBA64 for depth 16 and NRGBA otherwise, return the
blank raster if allocate-only, else run the scanline loop; the unread
remainder of the decompressed stream is returned alongside. -/
def readImagePass (st : DecState) (stream : List Nat) (pass : Fin 7)
    (allocateOnly : Bool) : Except PErr (Option ImgModel × List Nat) :=
  let width := usedWidth st pass allocateOnly
  let height := usedHeight st pass allocateOnly
  if st.interlace = itAdam7 ∧ allocateOnly = false ∧
      (width = 0 ∨ height = 0) then
    .ok (none, stream)
  else
    let img : ImgModel :=
      if st.depth = 16 then .nrgba64 (newNRGBA64 width height)
      else .nrgba (newNRGBA width height)
    if allocateOnly then .ok (some img, stream)
    else
      let bytesPerPixel := (st.bitsPerPixel + 7) / 8
      let rowSize := 1 + (st.bitsPerPixel * width + 7) / 8
      match passLoop st.depth width rowSize bytesPerPixel height 0 stream
        (List.replicate (rowSize - 1) 0) img 0 with
      | .error e => .error e
      | .ok (img2, rest) => .ok (some img2, rest)

lemma usedWidth_adam7 (st : DecState) (pass : Fin 7)
    (hI : st.interlace = itAdam7) :
    usedWidth st pass false = passWidth st.width pass := by
  unfold usedWidth
  rw [if_pos ⟨hI, rfl⟩]

lemma usedHeight_adam7 (st : DecState) (pass : Fin 7)
    (hI : st.interlace = itAdam7) :
    usedHeight st pass false = passHeight st.height pass := by
  unfold usedHeight
  rw [if_pos ⟨hI, rfl⟩]

lemma usedWidth_none (st : DecState) (pass : Fin 7)
    (hI : st.interlace = itNone) :
    usedWidth st pass false = st.width := by
  unfold usedWidth
  rw [if_neg (fun hand => by rw [hI] at hand; exact absurd hand.1 (by decide))]

lemma usedHeight_none (st : DecState) (pass : Fin 7)
    (hI : st.interlace = itNone) :
    usedHeight st pass false = st.height := by
  unfold usedHeight
  rw [if_neg (fun hand => by rw [hI] at hand; exact absurd hand.1 (by decide))]

lemma readImagePass_zero_pass (st : DecState) (stream : List Nat)
    (pass : Fin 7) (hI : st.interlace = itAdam7)
    (h0 : passWidth st.width pass = 0 ∨ passHeight st.height pass = 0) :
    readImagePass st stream pass false = .ok (none, stream) := by
  simp only [readImagePass]
  rw [if_pos ⟨hI, trivial, by
    rw [usedWidth_adam7 st pass hI, usedHeight_adam7 st pass hI]
    exact h0⟩]

/-- C7: the pass-local dimensions of an interlaced `readImagePass` call
are the add-factor-minus-one ceiling divisions
`(width - xOffset + xFactor - 1) / xFactor` (resp. y), and whenever either
is zero the call returns no image and leaves the stream untouched — not
even a filter-type byte is read. -/
theorem C7_interlaced_pass_geometry (st : DecState) (stream : List Nat)
    (pass : Fin 7) :
    (∀ w (p : Fin 7), passWidth w p =
      (w - (ipass p).xOffset + (ipass p).xFactor - 1) / (ipass p).xFactor)
    ∧ (∀ h (p : Fin 7), passHeight h p =
      (h - (ipass p).yOffset + (ipass p).yFactor - 1) / (ipass p).yFactor)
    ∧ (st.interlace = itAdam7 →
        passWidth st.width pass = 0 ∨ passHeight st.height pass = 0 →
        readImagePass st stream pass false = .ok (none, stream)) :=
  ⟨fun w p => passWidth_eq w p, fun h p => passHeight_eq h p,
   fun hI h0 => readImagePass_zero_pass st stream pass hI h0⟩

/-- Witness for C7: a 1×1 Adam7 image; pass 2 (index 1, x-offset 4) has
pass-local width 0, so its read returns nothing and leaves the two-byte
stream unread. -/
theorem C7_witness :
    readImagePass
      ⟨dsStart, true, 1, 1, 8, 32, itAdam7, 6, 0, 0, [], none⟩
      [5, 6] ⟨1, by omega⟩ false = .ok (none, [5, 6]) :=
  (C7_interlaced_pass_geometry _ _ _).2.2 rfl (Or.inl (by decide))

lemma passLoop_consume (depth width rowSize bytesPerPixel : Nat) :
    ∀ (n : Nat) (y : Nat) (stream prevDat : List Nat) (img : ImgModel)
      (pixOffset : Nat) (img2 : ImgModel) (rest : List Nat),
      passLoop depth width rowSize bytesPerPixel n y stream prevDat img
        pixOffset = .ok (img2, rest) →
      n * rowSize ≤ stream.length ∧ rest = stream.drop (n * rowSize) := by
  intro n
  induction n with
  | zero =>
    intro y stream prevDat img pixOffset img2 rest h
    simp only [passLoop, Except.ok.injEq, Prod.mk.injEq] at h
    rw [Nat.zero_mul, List.drop_zero]
    exact ⟨Nat.zero_le _, h.2.symm⟩
  | succ n ih =>
    intro y stream prevDat img pixOffset img2 rest h
    simp only [passLoop] at h
    by_cases hs : stream.length < rowSize
    · rw [if_pos hs] at h
      exact absurd h (by simp)
    · rw [if_neg hs] at h
      cases hu : unfilterRow ((stream.take rowSize).getD 0 0)
          ((stream.take rowSize).drop 1) prevDat bytesPerPixel with
      | error e =>
        rw [hu] at h
        exact absurd h (by simp)
      | ok cDat =>
        rw [hu] at h
        obtain ⟨h1, h2⟩ := ih _ _ _ _ _ _ _ h
        rw [List.length_drop] at h1
        constructor
        · rw [Nat.succ_mul]
          omega
        · rw [h2, List.drop_drop]
          congr 1
          rw [Nat.succ_mul]
          omega

lemma passLoop_short (depth width rowSize bytesPerPixel n y : Nat)
    (stream prevDat : List Nat) (img : ImgModel) (pixOffset : Nat)
    (hn : 0 < n) (hs : stream.length < rowSize) :
    passLoop depth width rowSize bytesPerPixel n y stream prevDat img
      pixOffset = .error .insufficientPixelData := by
  cases n with
  | zero => omega
  | succ n =>
    simp only [passLoop]
    rw [if_pos hs]

/-- C8: a non-interlaced `readImagePass` that succeeds consumes exactly
`height * rowSize` bytes with `rowSize = 1 + (bitsPerPixel*width + 7)/8`
(one filter byte plus the packed row), and any row of the scanline loop
whose remaining stream is shorter than that `rowSize` fails with the
insufficient-pixel-data error. -/
theorem C8_row_reads (st : DecState) (stream : List Nat) :
    (∀ img rest, st.interlace = itNone →
      readImagePass st stream 0 false = .ok (some img, rest) →
      st.height * (1 + (st.bitsPerPixel * st.width + 7) / 8) ≤
        stream.length ∧
      rest = stream.drop
        (st.height * (1 + (st.bitsPerPixel * st.width + 7) / 8)))
    ∧ (∀ depth width bpp bytesPerPixel n y (strm prev : List Nat)
        (img : ImgModel) (off : Nat), 0 < n →
        strm.length < 1 + (bpp * width + 7) / 8 →
        passLoop depth width (1 + (bpp * width + 7) / 8) bytesPerPixel n y
          strm prev img off = .error .insufficientPixelData) := by
  constructor
  · intro img rest hI h
    simp only [readImagePass] at h
    rw [if_neg (fun hand => by
      rw [hI] at hand
      exact absurd hand.1 (by decide))] at h
    rw [if_neg (by simp)] at h
    rw [usedWidth_none st 0 hI, usedHeight_none st 0 hI] at h
    cases hp : passLoop st.depth st.width
        (1 + (st.bitsPerPixel * st.width + 7) / 8)
        ((st.bitsPerPixel + 7) / 8) st.height 0 stream
        (List.replicate ((1 + (st.bitsPerPixel * st.width + 7) / 8) - 1) 0)
        (if st.depth = 16 then ImgModel.nrgba64
          (newNRGBA64 st.width st.height)
         else ImgModel.nrgba (newNRGBA st.width st.height)) 0 with
    | error e =>
      rw [hp] at h
      exact absurd h (by simp)
    | ok pr =>
      rw [hp] at h
      obtain ⟨img2, rest2⟩ := pr
      simp only [Except.ok.injEq, Prod.mk.injEq, Option.some.injEq] at h
      obtain ⟨hc1, hc2⟩ := passLoop_consume _ _ _ _ _ _ _ _ _ _ _ _ hp
      exact ⟨hc1, by rw [← h.2, hc2]⟩
  · intro depth width bpp bytesPerPixel n y strm prev img off hn hs
    exact passLoop_short depth width _ bytesPerPixel n y strm prev img off
      hn hs

/-- Witness for C8: a non-interlaced 1×1 depth-8 truecolor+alpha read of a
5-byte stream (rowSize 5) consumes it exactly, and a row with an empty
remaining stream fails with the insufficient-pixel-data error. -/
theorem C8_witness :
    (1 * (1 + (32 * 1 + 7) / 8) ≤
        ([0, 10, 20, 30, 40] : List Nat).length ∧
      ([] : List Nat) =
        ([0, 10, 20, 30, 40] : List Nat).drop (1 * (1 + (32 * 1 + 7) / 8)))
    ∧ passLoop 8 1 (1 + (32 * 1 + 7) / 8) 4 1 0 [] (List.replicate 4 0)
        (ImgModel.nrgba (newNRGBA 1 1)) 0 =
        .error .insufficientPixelData := by
  constructor
  · exact (C8_row_reads ⟨dsStart, true, 1, 1, 8, 32, 0, 6, 0, 0, [], none⟩
      [0, 10, 20, 30, 40]).1
      (ImgModel.nrgba ⟨1, 1, 4, [30, 20, 10, 40]⟩) [] rfl
      (by simp [readImagePass, usedWidth, usedHeight, passLoop, unfilterRow,
        unpackRow, swapBRAux, copyList, newNRGBA])
  · exact (C8_row_reads ⟨dsStart, true, 1, 1, 8, 32, 0, 6, 0, 0, [], none⟩
      []).2 8 1 32 4 1 0 [] (List.replicate 4 0)
      (ImgModel.nrgba (newNRGBA 1 1)) 0 (by decide) (by decide)

/-! Pointwise characterisation of the depth-8 swap and of `copy`. -/

lemma getD_set_self (l : List Nat) (i v : Nat) (h : i < l.length) :
    (l.set i v).getD i 0 = v := by
  simp [List.getD_eq_getElem?_getD, List.getElem?_set_self h]

lemma getD_set_ne (l : List Nat) (i j v : Nat) (h : i ≠ j) :
    (l.set i v).getD j 0 = l.getD j 0 := by
  simp [List.getD_eq_getElem?_getD, List.getElem?_set_ne h]

lemma swapPair_getD_other (l : List Nat) (x j v w : Nat) (h1 : j ≠ x)
    (h2 : j ≠ x + 2) :
    ((l.set x v).set (x + 2) w).getD j 0 = l.getD j 0 := by
  rw [getD_set_ne _ _ _ _ (fun he => h2 he.symm),
    getD_set_ne _ _ _ _ (fun he => h1 he.symm)]

lemma swapPair_getD_fst (l : List Nat) (x v w : Nat) (hx : x < l.length) :
    ((l.set x v).set (x + 2) w).getD x 0 = v := by
  rw [getD_set_ne _ _ _ _ (by omega)]
  exact getD_set_self l x v hx

lemma swapPair_getD_snd (l : List Nat) (x v w : Nat)
    (hx : x + 2 < l.length) :
    ((l.set x v).set (x + 2) w).getD (x + 2) 0 = w := by
  apply getD_set_self
  rw [List.length_set]
  exact hx

lemma swapBRAux_length : ∀ (fuel : Nat) (l : List Nat) (x stop : Nat),
    stop - x ≤ fuel → (swapBRAux l x stop).length = l.length := by
  intro fuel
  induction fuel with
  | zero =>
    intro l x stop h
    rw [swapBRAux, if_neg (by omega)]
  | succ fuel ih =>
    intro l x stop h
    by_cases hx : x < stop
    · rw [swapBRAux, if_pos hx, ih _ _ _ (by omega)]
      simp [List.length_set]
    · rw [swapBRAux, if_neg hx]

lemma swapBRAux_getD : ∀ (k : Nat) (l : List Nat) (x : Nat),
    x + 4 * k ≤ l.length → ∀ j,
    (swapBRAux l x (x + 4 * k)).getD j 0 =
      if x ≤ j ∧ j < x + 4 * k then
        (if (j - x) % 4 = 0 then l.getD (j + 2) 0
         else if (j - x) % 4 = 2 then l.getD (j - 2) 0
         else l.getD j 0)
      else l.getD j 0 := by
  intro k
  induction k with
  | zero =>
    intro l x hlen j
    rw [swapBRAux, if_neg (by omega), if_neg (by omega)]
  | succ k ih =>
    intro l x hlen j
    rw [swapBRAux, if_pos (by omega)]
    have harg : x + 4 * (k + 1) = x + 4 + 4 * k := by ring
    rw [harg, ih _ (x + 4) (by simp [List.length_set]; omega) j]
    by_cases hA : j < x
    · rw [if_neg (by omega), if_neg (by omega),
        swapPair_getD_other l x j _ _ (by omega) (by omega)]
    · by_cases hB : j = x
      · subst hB
        rw [if_neg (by omega), if_pos (by omega), if_pos (by omega),
          swapPair_getD_fst l j _ _ (by omega)]
      · by_cases hC : j = x + 1
        · subst hC
          rw [if_neg (by omega), if_pos (by omega), if_neg (by omega),
            if_neg (by omega),
            swapPair_getD_other l x (x + 1) _ _ (by omega) (by omega)]
        · by_cases hD : j = x + 2
          · subst hD
            rw [if_neg (by omega), if_pos (by omega), if_neg (by omega),
              if_pos (by omega), swapPair_getD_snd l x _ _ (by omega)]
            have he : x + 2 - 2 = x := by omega
            rw [he]
          · by_cases hE : j = x + 3
            · subst hE
              rw [if_neg (by omega), if_pos (by omega), if_neg (by omega),
                if_neg (by omega),
                swapPair_getD_other l x (x + 3) _ _ (by omega) (by omega)]
            · by_cases hF : j < x + 4 + 4 * k
              · have hj4 : x + 4 ≤ j := by omega
                have hmeq : (j - (x + 4)) % 4 = (j - x) % 4 := by omega
                rw [if_pos (show x + 4 ≤ j ∧ j < x + 4 + 4 * k from
                    by omega),
                  if_pos (show x ≤ j ∧ j < x + 4 + 4 * k from by omega),
                  hmeq]
                by_cases hm0 : (j - x) % 4 = 0
                · rw [if_pos hm0, if_pos hm0,
                    swapPair_getD_other l x (j + 2) _ _ (by omega)
                      (by omega)]
                · by_cases hm2 : (j - x) % 4 = 2
                  · rw [if_neg hm0, if_neg hm0, if_pos hm2, if_pos hm2,
                      swapPair_getD_other l x (j - 2) _ _ (by omega)
                        (by omega)]
                  · rw [if_neg hm0, if_neg hm0, if_neg hm2, if_neg hm2,
                      swapPair_getD_other l x j _ _ (by omega) (by omega)]
              · rw [if_neg (by omega), if_neg (by omega),
                  swapPair_getD_other l x j _ _ (by omega) (by omega)]

lemma copyList_length (dst : List Nat) (off : Nat) (src : List Nat) :
    (copyList dst off src).length = dst.length := by
  unfold copyList
  simp only [List.length_append, List.length_take, List.length_drop]
  omega

lemma copyList_getD_lt (dst : List Nat) (off : Nat) (src : List Nat)
    (j : Nat) (hj : j < off) (hjd : j < dst.length) :
    (copyList dst off src).getD j 0 = dst.getD j 0 := by
  unfold copyList
  simp only [List.getD_eq_getElem?_getD]
  rw [List.getElem?_append_left (by
    simp only [List.length_append, List.length_take]
    omega)]
  rw [List.getElem?_append_left (by
    simp only [List.length_take]
    omega)]
  rw [List.getElem?_take_of_lt hj]

lemma copyList_getD_in (dst : List Nat) (off : Nat) (src : List Nat)
    (j : Nat) (hj : j < src.length) (hb : off + j < dst.length) :
    (copyList dst off src).getD (off + j) 0 = src.getD j 0 := by
  unfold copyList
  simp only [List.getD_eq_getElem?_getD]
  rw [List.getElem?_append_left (by
    simp only [List.length_append, List.length_take]
    omega)]
  rw [List.getElem?_append_right (by
    simp only [List.length_take]
    omega)]
  have hA : (dst.take off).length = off := by
    rw [List.length_take]
    omega
  rw [hA]
  have he : off + j - off = j := by omega
  rw [he, List.getElem?_take_of_lt (by omega)]

lemma filterSubRev_length_aux : ∀ (fuel : Nat) (a : List Nat) (bpp i : Nat),
    a.length - i ≤ fuel → (filterSubRev a bpp i).length = a.length := by
  intro fuel
  induction fuel with
  | zero =>
    intro a bpp i h
    rw [filterSubRev, if_neg (by omega)]
  | succ fuel ih =>
    intro a bpp i h
    by_cases hi : i < a.length
    · rw [filterSubRev, if_pos hi,
        ih _ _ _ (by simp only [List.length_set]; omega)]
      simp [List.length_set]
    · rw [filterSubRev, if_neg hi]

lemma filterSubRev_length (a : List Nat) (bpp i : Nat) :
    (filterSubRev a bpp i).length = a.length :=
  filterSubRev_length_aux (a.length - i) a bpp i le_rfl

lemma filterAvgFirst_length : ∀ (bpp : Nat) (a pDat : List Nat) (i : Nat),
    bpp - i ≤ bpp → (filterAvgFirst a pDat bpp i).length = a.length := by
  intro bpp
  have haux : ∀ (fuel : Nat) (a pDat : List Nat) (i : Nat), bpp - i ≤ fuel →
      (filterAvgFirst a pDat bpp i).length = a.length := by
    intro fuel
    induction fuel with
    | zero =>
      intro a pDat i h
      rw [filterAvgFirst, if_neg (by omega)]
    | succ fuel ih =>
      intro a pDat i h
      by_cases hi : i < bpp
      · rw [filterAvgFirst, if_pos hi, ih _ _ _ (by omega)]
        simp [List.length_set]
      · rw [filterAvgFirst, if_neg hi]
  intro a pDat i h
  exact haux (bpp - i) a pDat i le_rfl

lemma filterAvgRest_length_aux :
    ∀ (fuel : Nat) (a pDat : List Nat) (bpp i : Nat),
    a.length - i ≤ fuel → (filterAvgRest a pDat bpp i).length = a.length := by
  intro fuel
  induction fuel with
  | zero =>
    intro a pDat bpp i h
    rw [filterAvgRest, if_neg (by omega)]
  | succ fuel ih =>
    intro a pDat bpp i h
    by_cases hi : i < a.length
    · rw [filterAvgRest, if_pos hi,
        ih _ _ _ _ (by simp only [List.length_set]; omega)]
      simp [List.length_set]
    · rw [filterAvgRest, if_neg hi]

lemma filterAvgRev_length (a pDat : List Nat) (bpp : Nat) :
    (filterAvgRev a pDat bpp).length = a.length := by
  unfold filterAvgRev
  rw [filterAvgRest_length_aux ((filterAvgFirst a pDat bpp 0).length - bpp)
    _ _ _ _ le_rfl]
  exact filterAvgFirst_length bpp a pDat 0 (by omega)

lemma filterPaethRev_length_aux :
    ∀ (fuel : Nat) (a pDat : List Nat) (bpp i : Nat),
    a.length - i ≤ fuel → (filterPaethRev a pDat bpp i).length = a.length := by
  intro fuel
  induction fuel with
  | zero =>
    intro a pDat bpp i h
    rw [filterPaethRev, if_neg (by omega)]
  | succ fuel ih =>
    intro a pDat bpp i h
    by_cases hi : i < a.length
    · rw [filterPaethRev, if_pos hi,
        ih _ _ _ _ (by simp only [List.length_set]; omega)]
      simp [List.length_set]
    · rw [filterPaethRev, if_neg hi]

lemma unfilterRow_length (ft : Nat) (cDat pDat : List Nat) (bpp : Nat)
    (out : List Nat) (hp : pDat.length = cDat.length)
    (h : unfilterRow ft cDat pDat bpp = .ok out) :
    out.length = cDat.length := by
  unfold unfilterRow at h
  split_ifs at h <;> simp only [Except.ok.injEq] at h
  · rw [← h]
  · rw [← h, filterSubRev_length]
  · rw [← h, List.length_zipWith, hp, Nat.min_self]
  · rw [← h, filterAvgRev_length]
  · rw [← h, filterPaethRev_length_aux (cDat.length - 0) _ _ _ _ le_rfl]

/-- The unfiltered rows of a scanline run, as `readImagePass` reconstructs
them: row `y` is the filter-reversed `cDat` of scanline `y`, and the
previous-row buffer threaded to the next row is the depth-8-swapped
version of the current row when the depth is 8, exactly as the in-place
row buffers of `readImagePass` evolve. -/
def unfilteredRows (depth width rowSize bytesPerPixel : Nat) :
    Nat → List Nat → List Nat → Except PErr (List (List Nat))
  | 0, _, _ => .ok []
  | n + 1, stream, prevDat =>
    if stream.length < rowSize then .error .insufficientPixelData
    else
      let cr := stream.take rowSize
      match unfilterRow (cr.getD 0 0) (cr.drop 1) prevDat bytesPerPixel with
      | .error e => .error e
      | .ok cDat =>
        let prev2 := if depth = 8 then swapBRAux cDat 0 (width * 4)
          else cDat
        match unfilteredRows depth width rowSize bytesPerPixel n
          (stream.drop rowSize) prev2 with
        | .error e => .error e
        | .ok rows => .ok (cDat :: rows)

/-- Where the swapped row's byte `j` comes from in the unswapped row:
`j+2` when `j % 4 = 0`, `j-2` when `j % 4 = 2`, `j` otherwise. -/
def swapIdx (j : Nat) : Nat :=
  if j % 4 = 0 then j + 2 else if j % 4 = 2 then j - 2 else j

lemma passLoop8_pix (width rowSize : Nat) (hrow : rowSize = 1 + 4 * width) :
    ∀ (n y : Nat) (stream prevDat : List Nat) (im : NRGBAimg)
      (pixOffset : Nat) (res : ImgModel × List Nat),
      im.stride = 4 * width →
      prevDat.length = 4 * width →
      pixOffset + n * (4 * width) ≤ im.pix.length →
      passLoop 8 width rowSize 4 n y stream prevDat (.nrgba im) pixOffset =
        .ok res →
      ∃ im2 rows, res.1 = .nrgba im2 ∧
        unfilteredRows 8 width rowSize 4 n stream prevDat = .ok rows ∧
        rows.length = n ∧
        im2.stride = im.stride ∧ im2.pix.length = im.pix.length ∧
        (∀ k j, k < n → j < 4 * width →
          im2.pix.getD (pixOffset + k * (4 * width) + j) 0 =
            (rows.getD k []).getD (swapIdx j) 0) ∧
        (∀ idx, idx < pixOffset →
          im2.pix.getD idx 0 = im.pix.getD idx 0) := by
  intro n
  induction n with
  | zero =>
    intro y stream prevDat im pixOffset res hs hp hb h
    simp only [passLoop, Except.ok.injEq] at h
    refine ⟨im, [], ?_, rfl, rfl, rfl, rfl, ?_, ?_⟩
    · rw [← h]
    · intro k j hk _
      exact absurd hk (by omega)
    · intro idx _
      rfl
  | succ n ih =>
    intro y stream prevDat im pixOffset res hs hp hb h
    simp only [passLoop] at h
    by_cases hlen : stream.length < rowSize
    · rw [if_pos hlen] at h
      exact absurd h (by simp)
    · rw [if_neg hlen] at h
      cases hu : unfilterRow ((stream.take rowSize).getD 0 0)
          ((stream.take rowSize).drop 1) prevDat 4 with
      | error e =>
        rw [hu] at h
        exact absurd h (by simp)
      | ok cDat =>
        simp only [hu] at h
        have hcd0 : ((stream.take rowSize).drop 1).length = 4 * width := by
          rw [List.length_drop, List.length_take]
          omega
        have hcd : cDat.length = 4 * width := by
          rw [unfilterRow_length _ _ _ _ _ (by rw [hcd0, hp]) hu, hcd0]
        have hterm : width * 4 = 0 + 4 * width := by ring
        have hun : unpackRow 8 width y pixOffset (ImgModel.nrgba im) cDat =
            (.nrgba { im with
              pix := copyList im.pix pixOffset
                (swapBRAux cDat 0 (width * 4)) },
             swapBRAux cDat 0 (width * 4), pixOffset + im.stride) := by
          simp [unpackRow]
        simp only [hun] at h
        have hswlen : (swapBRAux cDat 0 (width * 4)).length = 4 * width := by
          rw [swapBRAux_length (width * 4) _ _ _ (by omega), hcd]
        have hswget : ∀ j, j < 4 * width →
            (swapBRAux cDat 0 (width * 4)).getD j 0 =
              cDat.getD (swapIdx j) 0 := by
          intro j hj
          rw [hterm, swapBRAux_getD width cDat 0 (by omega) j,
            if_pos (by omega)]
          unfold swapIdx
          have hjz : j - 0 = j := by omega
          rw [hjz]
          split_ifs <;> rfl
        obtain ⟨im2, rows, hres, hrows, hrl, hst, hpl, hpt, hfr⟩ :=
          ih (y + 1) (stream.drop rowSize) (swapBRAux cDat 0 (width * 4))
            { im with
              pix := copyList im.pix pixOffset
                (swapBRAux cDat 0 (width * 4)) }
            (pixOffset + im.stride) res hs hswlen
            (by
              simp only [copyList_length]
              rw [hs]
              rw [Nat.succ_mul] at hb
              omega)
            h
        refine ⟨im2, cDat :: rows, hres, ?_, by simp [hrl], ?_, ?_, ?_, ?_⟩
        · simp only [unfilteredRows]
          rw [if_neg hlen]
          simp only [hu]
          rw [if_pos trivial, hrows]
        · rw [hst]
        · rw [hpl, copyList_length]
        · intro k j hk hj
          cases k with
          | zero =>
            have hidx : pixOffset + 0 * (4 * width) + j = pixOffset + j := by
              ring
            rw [hidx]
            have hlt : pixOffset + j < pixOffset + im.stride := by
              rw [hs]
              omega
            rw [hfr _ hlt]
            show (copyList im.pix pixOffset
              (swapBRAux cDat 0 (width * 4))).getD (pixOffset + j) 0 = _
            rw [copyList_getD_in im.pix pixOffset _ j (by rw [hswlen]; omega)
              (by rw [Nat.succ_mul] at hb; omega)]
            rw [hswget j hj]
            rfl
          | succ k =>
            have hidx : pixOffset + (k + 1) * (4 * width) + j =
                pixOffset + im.stride + k * (4 * width) + j := by
              rw [hs]
              ring
            rw [hidx, hpt k j (by omega) hj]
            rfl
        · intro idx hidx
          rw [hfr idx (by omega)]
          show (copyList im.pix pixOffset
            (swapBRAux cDat 0 (width * 4))).getD idx 0 = _
          rw [copyList_getD_lt _ _ _ _ hidx
            (by rw [Nat.succ_mul] at hb; omega)]

/-- C1: for a depth-8 truecolor+alpha (bits-per-pixel 32) `readImagePass`
that yields an NRGBA image, the output pixel (x, y) holds the unfiltered
row's bytes with B and R swapped: R is the row's byte `4x+2`, G is `4x+1`,
B is `4x`, A is `4x+3`, at the row's offset `y*stride` of the pixel
buffer. -/
theorem C1_depth8_swap (st : DecState) (stream : List Nat) (pass : Fin 7)
    (im : NRGBAimg) (rest : List Nat) (hd : st.depth = 8)
    (hb : st.bitsPerPixel = 32) (hct : st.colorType = ctTrueColorAlpha)
    (h : readImagePass st stream pass false = .ok (some (.nrgba im), rest)) :
    ∃ rows,
      unfilteredRows 8 (usedWidth st pass false)
        (1 + 4 * usedWidth st pass false) 4 (usedHeight st pass false)
        stream (List.replicate (4 * usedWidth st pass false) 0) =
          .ok rows ∧
      rows.length = usedHeight st pass false ∧
      im.stride = 4 * usedWidth st pass false ∧
      ∀ x y, x < usedWidth st pass false → y < usedHeight st pass false →
        (im.pix.getD (y * im.stride + 4 * x) 0 =
          (rows.getD y []).getD (4 * x + 2) 0 ∧
         im.pix.getD (y * im.stride + 4 * x + 1) 0 =
          (rows.getD y []).getD (4 * x + 1) 0 ∧
         im.pix.getD (y * im.stride + 4 * x + 2) 0 =
          (rows.getD y []).getD (4 * x) 0 ∧
         im.pix.getD (y * im.stride + 4 * x + 3) 0 =
          (rows.getD y []).getD (4 * x + 3) 0) := by
  simp only [readImagePass] at h
  by_cases hzero : st.interlace = itAdam7 ∧ True ∧
      (usedWidth st pass false = 0 ∨ usedHeight st pass false = 0)
  · rw [if_pos hzero] at h
    exact absurd h (by simp)
  · rw [if_neg hzero] at h
    rw [if_neg (show ¬false = true by decide)] at h
    set W := usedWidth st pass false with hW
    set H := usedHeight st pass false with hH
    rw [hd, hb] at h
    have hrs : (32 * W + 7) / 8 = 4 * W := by omega
    have hbp : (32 + 7) / 8 = 4 := by norm_num
    rw [hrs, hbp] at h
    rw [if_neg (show ¬(8 : Nat) = 16 by decide)] at h
    cases hp : passLoop 8 W (1 + 4 * W) 4 H 0 stream
        (List.replicate (1 + 4 * W - 1) 0) (.nrgba (newNRGBA W H)) 0 with
    | error e =>
      rw [hp] at h
      exact absurd h (by simp)
    | ok pr =>
      rw [hp] at h
      obtain ⟨img2, rest2⟩ := pr
      simp only [Except.ok.injEq, Prod.mk.injEq, Option.some.injEq] at h
      obtain ⟨h1, _⟩ := h
      have hrepl : (List.replicate (1 + 4 * W - 1) 0 : List Nat).length =
          4 * W := by
        rw [List.length_replicate]
        omega
      obtain ⟨im2, rows, hres, hrows, hrl, hst, _, hpt, _⟩ :=
        passLoop8_pix W (1 + 4 * W) rfl H 0 stream _ (newNRGBA W H) 0
          (img2, rest2) rfl hrepl
          (by
            show 0 + H * (4 * W) ≤ (List.replicate (4 * W * H) 0).length
            rw [List.length_replicate]
            have heq : H * (4 * W) = 4 * W * H := by ring
            omega)
          hp
      rw [show 1 + 4 * W - 1 = 4 * W from by omega] at hrows
      have him : im = im2 := by
        have h2 : ImgModel.nrgba im = ImgModel.nrgba im2 := by
          rw [← h1]
          exact hres
        exact ImgModel.nrgba.inj h2
      refine ⟨rows, hrows, hrl, ?_, ?_⟩
      · rw [him, hst]
        rfl
      · intro x y hx hy
        have hstride : im.stride = 4 * W := by rw [him, hst]; rfl
        have hget : ∀ c, c < 4 →
            im.pix.getD (y * im.stride + 4 * x + c) 0 =
              (rows.getD y []).getD (swapIdx (4 * x + c)) 0 := by
          intro c hc
          have hidx : y * im.stride + 4 * x + c =
              0 + y * (4 * W) + (4 * x + c) := by
            rw [hstride]
            ring
          rw [hidx, him]
          exact hpt y (4 * x + c) hy (by omega)
        refine ⟨?_, ?_, ?_, ?_⟩
        · have h0 := hget 0 (by omega)
          have hsw : swapIdx (4 * x + 0) = 4 * x + 2 := by
            unfold swapIdx
            rw [if_pos (by omega)]
          have hc0 : y * im.stride + 4 * x + 0 = y * im.stride + 4 * x := by
            omega
          rw [hc0, hsw] at h0
          exact h0
        · have h1c := hget 1 (by omega)
          have hsw : swapIdx (4 * x + 1) = 4 * x + 1 := by
            unfold swapIdx
            rw [if_neg (by omega), if_neg (by omega)]
          rw [hsw] at h1c
          exact h1c
        · have h2c := hget 2 (by omega)
          have hsw : swapIdx (4 * x + 2) = 4 * x := by
            unfold swapIdx
            rw [if_neg (by omega), if_pos (by omega)]
            omega
          rw [hsw] at h2c
          exact h2c
        · have h3c := hget 3 (by omega)
          have hsw : swapIdx (4 * x + 3) = 4 * x + 3 := by
            unfold swapIdx
            rw [if_neg (by omega), if_neg (by omega)]
          rw [hsw] at h3c
          exact h3c


/-- Witness for C1: a 1 x 1 depth-8 truecolor+alpha image whose single
unfiltered row is `[1, 2, 3, 4]` decodes to the pixel bytes `[3, 2, 1, 4]`,
i.e. bytes 0 and 2 swapped. -/
theorem C1_witness :
    readImagePass ⟨dsStart, true, 1, 1, 8, 32, 0, 6, 0, 0, [], none⟩
        [0, 1, 2, 3, 4] 0 false =
      .ok (some (.nrgba ⟨1, 1, 4, [3, 2, 1, 4]⟩), []) ∧
    ∃ rows,
      unfilteredRows 8 1 5 4 1 [0, 1, 2, 3, 4] (List.replicate 4 0) =
        .ok rows ∧
      rows.length = 1 ∧
      (⟨1, 1, 4, [3, 2, 1, 4]⟩ : NRGBAimg).stride = 4 ∧
      ((⟨1, 1, 4, [3, 2, 1, 4]⟩ : NRGBAimg).pix.getD 0 0 =
          (rows.getD 0 []).getD 2 0 ∧
        (⟨1, 1, 4, [3, 2, 1, 4]⟩ : NRGBAimg).pix.getD 1 0 =
          (rows.getD 0 []).getD 1 0 ∧
        (⟨1, 1, 4, [3, 2, 1, 4]⟩ : NRGBAimg).pix.getD 2 0 =
          (rows.getD 0 []).getD 0 0 ∧
        (⟨1, 1, 4, [3, 2, 1, 4]⟩ : NRGBAimg).pix.getD 3 0 =
          (rows.getD 0 []).getD 3 0) := by
  have h : readImagePass ⟨dsStart, true, 1, 1, 8, 32, 0, 6, 0, 0, [], none⟩
      [0, 1, 2, 3, 4] 0 false =
      .ok (some (.nrgba ⟨1, 1, 4, [3, 2, 1, 4]⟩), []) := by
    simp [readImagePass, usedWidth, usedHeight, passLoop, unfilterRow,
      unpackRow, swapBRAux, copyList, newNRGBA]
  refine ⟨h, ?_⟩
  obtain ⟨rows, h1, h2, h3, h4⟩ :=
    C1_depth8_swap ⟨dsStart, true, 1, 1, 8, 32, 0, 6, 0, 0, [], none⟩
      [0, 1, 2, 3, 4] 0 ⟨1, 1, 4, [3, 2, 1, 4]⟩ [] rfl rfl rfl h
  have hw : usedWidth ⟨dsStart, true, 1, 1, 8, 32, 0, 6, 0, 0, [], none⟩
      0 false = 1 := by
    simp [usedWidth]
  have hh : usedHeight ⟨dsStart, true, 1, 1, 8, 32, 0, 6, 0, 0, [], none⟩
      0 false = 1 := by
    simp [usedHeight]
  simp only [hw, hh] at h1 h2 h3 h4
  exact ⟨rows, h1, h2, rfl, h4 0 0 (by omega) (by omega)⟩


/-! The chunk-processing pipeline: `parseIDAT`, `mergePassInto`, `decode`
and `parseChunk`, with the zlib inflater and the external standard-PNG
decoder abstracted as function parameters (their bodies live outside this
codebase; only what the code hands them and does with their results is
embedded). -/

/-- `parseIDAT`: `cgbi.IDAT = append(cgbi.IDAT, IDAT.Data...)`. -/
def parseIDAT (s : DecState) (c : GoChunk) : DecState :=
  { s with idat := s.idat ++ c.data }

/-- Inner column loop of `mergePassInto`:
`d := dBase + x*xFactor*bytesPerPixel;
copy(dstPix[d:], srcPix[s:s+bytesPerPixel]); s += bytesPerPixel` for
`x` from 0 while `x < src.width`; returns the updated destination and
source cursor. -/
def mergeCols (srcPix : List Nat) (dBase xF bpp : Nat) :
    Nat → Nat → Nat → List Nat → (List Nat × Nat)
  | 0, _, s, dstPix => (dstPix, s)
  | n + 1, x, s, dstPix =>
      mergeCols srcPix dBase xF bpp n (x + 1) (s + bpp)
        (copyList dstPix (dBase + x * xF * bpp) ((srcPix.drop s).take bpp))

/-- Outer row loop of `mergePassInto`:
`dBase := (y*yFactor + yOffset)*stride + xOffset*bytesPerPixel` (the
destination rectangle starts at the origin) for `y` from 0 while
`y < src.height`. -/
def mergeRows (srcPix : List Nat) (stride xF yF xO yO bpp srcW : Nat) :
    Nat → Nat → Nat → List Nat → List Nat
  | 0, _, _, dstPix => dstPix
  | n + 1, y, s, dstPix =>
      let r := mergeCols srcPix ((y * yF + yO) * stride + xO * bpp) xF bpp
        srcW 0 s dstPix
      mergeRows srcPix stride xF yF xO yO bpp srcW n (y + 1) r.2 r.1

/-- `mergePassInto`: the destination type switch picks 4 bytes per pixel
for `image.NRGBA` and 8 for `image.NRGBA64` (the only rasters this decoder
allocates) and asserts the source to the same type — in `decode` both
always come from `readImagePass` with the same depth, so the source raster
is read directly here — then runs the copy loops over the source bounds. -/
def mergePassInto (dst src : ImgModel) (pass : Fin 7) : ImgModel :=
  let p := ipass pass
  let srcIm := match src with | .nrgba s2 => s2 | .nrgba64 s2 => s2
  match dst with
  | .nrgba d =>
      let merged := mergeRows srcIm.pix d.stride p.xFactor p.yFactor
        p.xOffset p.yOffset 4 srcIm.width srcIm.height 0 0 d.pix
      .nrgba { d with pix := merged }
  | .nrgba64 d =>
      let merged := mergeRows srcIm.pix d.stride p.xFactor p.yFactor
        p.xOffset p.yOffset 8 srcIm.width srcIm.height 0 0 d.pix
      .nrgba64 { d with pix := merged }

/-- The Adam7 pass loop of `decode`: seven `readImagePass` calls on the
shared decompressed stream, merging every non-nil pass raster into the
full-size image. -/
def adam7Loop (st : DecState) :
    Nat → Fin 7 → ImgModel → List Nat → Except PErr (ImgModel × List Nat)
  | 0, _, img, stream => .ok (img, stream)
  | n + 1, p, img, stream =>
      match readImagePass st stream p false with
      | .error e => .error e
      | .ok (some imagePass, rest) =>
          adam7Loop st n (p + 1) (mergePassInto img imagePass p) rest
      | .ok (none, rest) => adam7Loop st n (p + 1) img rest

/-- The body of `decode` after zlib decompression succeeds: one
`readImagePass` for a non-interlaced image; allocate then seven merged
passes for Adam7; any other interlace value leaves the image nil. -/
def decodeStream (st : DecState) (stream : List Nat) :
    Except PErr (Option ImgModel) :=
  if st.interlace = itNone then
    match readImagePass st stream 0 false with
    | .error e => .error e
    | .ok (oimg, _) => .ok oimg
  else if st.interlace = itAdam7 then
    match readImagePass st [] 0 true with
    | .error e => .error e
    | .ok (none, _) => .ok none
    | .ok (some img0, _) =>
        match adam7Loop st 7 0 img0 stream with
        | .error e => .error e
        | .ok (img, _) => .ok (some img)
  else .ok none

/-- `decode`: `bytes.NewReader(cgbi.IDAT)` is wrapped in
`zlib.NewReader` — the inflater, abstracted as `inflate`, is handed
exactly the accumulated `IDAT` buffer — and the decompressed stream feeds
the pass reads. -/
def decodeModel (inflate : List Nat → Except PErr (List Nat))
    (st : DecState) : Except PErr (Option ImgModel) :=
  match inflate st.idat with
  | .error e => .error e
  | .ok stream => decodeStream st stream

/-- One iteration of `parseChunk`'s loop body: the critical-chunk type
switch with its stage checks, `parseIHDR`, `parseIDAT`, the `decode` call
at IEND, and no action for any other type. -/
def chunkStep (inflate : List Nat → Except PErr (List Nat))
    (s : DecState) (c : GoChunk) : Except PErr DecState :=
  if c.ctype = dsSeenIHDR then
    if s.stage ≠ dsStart then .error .chunkOrder
    else parseIHDR { s with stage := dsSeenIHDR } c
  else if c.ctype = dsSeenIDAT then
    if s.stage ≠ dsSeenIHDR ∧ s.stage ≠ dsSeenIDAT then .error .chunkOrder
    else .ok (parseIDAT { s with stage := dsSeenIDAT } c)
  else if c.ctype = dsSeenIEND then
    if s.stage ≠ dsSeenIDAT then .error .chunkOrder
    else
      match decodeModel inflate { s with stage := dsSeenIEND } with
      | .error e => .error e
      | .ok oimg => .ok { s with stage := dsSeenIEND, img := oimg }
  else .ok s

/-- `parseChunk`'s loop over the chunks from index 1, stopping at the
first error. -/
def runChunks (inflate : List Nat → Except PErr (List Nat)) :
    DecState → List GoChunk → Except PErr DecState
  | s, [] => .ok s
  | s, c :: cs =>
      match chunkStep inflate s c with
      | .error e => .error e
      | .ok s2 => runChunks inflate s2 cs

/-- `parseChunk`: no chunks is an error; a first chunk not typed CgBI
clears the CgBI flag, seeks the source back to its start and hands the
whole input to the external standard PNG decoder (`stdDecode`); otherwise
the loop runs from index 1 starting at `dsStart`, and stopping short of
`dsSeenIEND` is the missing-IEND error. -/
def parseChunkModel (stdDecode : List Nat → Except PErr ImgModel)
    (inflate : List Nat → Except PErr (List Nat)) (input : List Nat)
    (s : DecState) (chunks : List GoChunk) : Except PErr DecState :=
  match chunks with
  | [] => .error .noChunks
  | c0 :: rest =>
      if c0.ctype ≠ dsSeenCgBI then
        match stdDecode input with
        | .error e => .error e
        | .ok img => .ok { s with isCgBI := false, img := some img }
      else
        match runChunks inflate { s with stage := dsStart } rest with
        | .error e => .error e
        | .ok s2 =>
            if s2.stage ≠ dsSeenIEND then .error .missingIend else .ok s2

/-- The decoder state `Decode` constructs before reading any chunk: Go
zero values everywhere except the `IDAT` buffer, which is pre-seeded with
the fixed two-byte zlib header `[]byte{120, 156}` never read from the
file. -/
def initState : DecState :=
  ⟨dsStart, false, 0, 0, 0, 0, 0, 0, 0, 0, [120, 156], none⟩

/-- The concatenated payloads of the IDAT-typed chunks, in list order. -/
def idatPayloads (cs : List GoChunk) : List Nat :=
  (cs.filter (fun c => c.ctype == dsSeenIDAT)).flatMap (fun c => c.data)


lemma parseIHDR_idat (s : DecState) (c : GoChunk) (s2 : DecState)
    (h : parseIHDR s c = .ok s2) : s2.idat = s.idat := by
  by_cases h1 : c.length = 13
  · by_cases h2 : beU32 (c.data.take 4) = 0
    · rw [parseIHDR_err_width s c h1 h2] at h
      exact absurd h (by simp)
    · by_cases h3 : beU32 ((c.data.drop 4).take 4) = 0
      · rw [parseIHDR_err_height s c h1 h2 h3] at h
        exact absurd h (by simp)
      · by_cases h4 : cbOf (c.data.getD 9 0) (c.data.getD 8 0) = true
        · by_cases h5 : c.data.getD 10 0 = 0
          · by_cases h6 : c.data.getD 11 0 = 0
            · by_cases h7 : c.data.getD 12 0 = 0 ∨ c.data.getD 12 0 = 1
              · rw [parseIHDR_ok_char s c h1 h2 h3 h4 h5 h6 h7] at h
                simp only [Except.ok.injEq] at h
                subst h
                rfl
              · push_neg at h7
                rw [parseIHDR_err_interlace s c h1 h2 h3 h4 h5 h6
                  h7.1 h7.2] at h
                exact absurd h (by simp)
            · rw [parseIHDR_err_filter s c h1 h2 h3 h4 h5 h6] at h
              exact absurd h (by simp)
          · rw [parseIHDR_err_compression s c h1 h2 h3 h4 h5] at h
            exact absurd h (by simp)
        · rw [parseIHDR_err_depth s c h1 h2 h3
            (Bool.eq_false_iff.mpr h4)] at h
          exact absurd h (by simp)
  · rw [parseIHDR_err_len s c h1] at h
    exact absurd h (by simp)

lemma chunkStep_idat (inflate : List Nat → Except PErr (List Nat))
    (s : DecState) (c : GoChunk) (s2 : DecState)
    (h : chunkStep inflate s c = .ok s2) :
    s2.idat = if c.ctype = dsSeenIDAT then s.idat ++ c.data else s.idat := by
  unfold chunkStep at h
  by_cases hH : c.ctype = dsSeenIHDR
  · rw [if_pos hH] at h
    by_cases hs : s.stage ≠ dsStart
    · rw [if_pos hs] at h
      exact absurd h (by simp)
    · rw [if_neg hs] at h
      have hi := parseIHDR_idat _ _ _ h
      rw [hi, if_neg (by rw [hH]; decide)]
  · rw [if_neg hH] at h
    by_cases hD : c.ctype = dsSeenIDAT
    · rw [if_pos hD] at h
      by_cases hs : s.stage ≠ dsSeenIHDR ∧ s.stage ≠ dsSeenIDAT
      · rw [if_pos hs] at h
        exact absurd h (by simp)
      · rw [if_neg hs] at h
        simp only [Except.ok.injEq] at h
        subst h
        rw [if_pos hD]
        rfl
    · rw [if_neg hD] at h
      rw [if_neg hD]
      by_cases hE : c.ctype = dsSeenIEND
      · rw [if_pos hE] at h
        by_cases hs : s.stage ≠ dsSeenIDAT
        · rw [if_pos hs] at h
          exact absurd h (by simp)
        · rw [if_neg hs] at h
          revert h
          match decodeModel inflate { s with stage := dsSeenIEND } with
          | .error e => intro h; exact absurd h (by simp)
          | .ok oimg =>
              intro h
              simp only [Except.ok.injEq] at h
              subst h
              rfl
      · rw [if_neg hE] at h
        simp only [Except.ok.injEq] at h
        subst h
        rfl

lemma runChunks_idat (inflate : List Nat → Except PErr (List Nat)) :
    ∀ (cs : List GoChunk) (s s2 : DecState),
    runChunks inflate s cs = .ok s2 →
      s2.idat = s.idat ++ idatPayloads cs := by
  intro cs
  induction cs with
  | nil =>
      intro s s2 h
      simp only [runChunks, Except.ok.injEq] at h
      subst h
      simp [idatPayloads]
  | cons c cs ih =>
      intro s s2 h
      simp only [runChunks] at h
      revert h
      match hc : chunkStep inflate s c with
      | .error e => intro h; exact absurd h (by simp)
      | .ok s1 =>
          intro h
          have h1 := chunkStep_idat inflate s c s1 hc
          have h2 := ih s1 s2 h
          rw [h2, h1]
          simp only [idatPayloads]
          by_cases ht : c.ctype = dsSeenIDAT
          · rw [if_pos ht, List.filter_cons_of_pos (by simp [ht])]
            simp [List.append_assoc]
          · rw [if_neg ht, List.filter_cons_of_neg (by simp [ht])]


/-- Modelled from the spec: the behaviour the spec prescribes for a
non-CgBI first chunk — rewind and return exactly what the reference
standard-PNG decoder produces on the identical bytes, with the CgBI flag
cleared and the decoded image stored. -/
def specNonCgbiDecode (stdDecode : List Nat → Except PErr ImgModel)
    (input : List Nat) (s : DecState) : Except PErr DecState :=
  match stdDecode input with
  | .error e => .error e
  | .ok img => .ok { s with isCgBI := false, img := some img }

/-- C9: whenever the first sequenced chunk is not typed CgBI, `parseChunk`
delegates: for every chunk list with such a head, every state, every
inflater and every tail, the result is exactly the standard decoder
applied to the whole input (the source seeks back to offset 0 first, so
the external decoder sees the identical bytes), with the CgBI flag
cleared and the returned image stored; no CgBI-path parsing of any chunk
happens (the result does not depend on the inflater or on any chunk
beyond the head's type). -/
theorem C9_non_cgbi_delegation
    (stdDecode : List Nat → Except PErr ImgModel)
    (inflate : List Nat → Except PErr (List Nat))
    (input : List Nat) (s : DecState) (c0 : GoChunk)
    (rest : List GoChunk) (h : c0.ctype ≠ dsSeenCgBI) :
    parseChunkModel stdDecode inflate input s (c0 :: rest) =
      specNonCgbiDecode stdDecode input s := by
  simp only [parseChunkModel, specNonCgbiDecode]
  rw [if_pos h]

/-- Witness for C9: a single IHDR-typed head chunk is not CgBI, so the
dispatcher returns the standard decoder's image for any inflater. -/
theorem C9_witness :
    parseChunkModel (fun _ => .ok (.nrgba ⟨1, 1, 4, [7, 7, 7, 7]⟩))
        (fun _ => .error .zlibError) [137, 80, 78, 71] initState
        [⟨0, dsSeenIHDR, [], 0⟩] =
      .ok { initState with isCgBI := false, img := some (.nrgba ⟨1, 1, 4, [7, 7, 7, 7]⟩) } := by
  rw [C9_non_cgbi_delegation (fun _ => .ok (.nrgba ⟨1, 1, 4, [7, 7, 7, 7]⟩))
    (fun _ => .error .zlibError) [137, 80, 78, 71] initState
    ⟨0, dsSeenIHDR, [], 0⟩ [] (by decide)]
  rfl

/-- C10: the zlib inflater input invariant.  First, the decoder state
`Decode` constructs seeds the IDAT buffer with the fixed bytes 120, 156.
Second, a successful run of `parseChunk`'s loop only ever appends: the
final buffer is the initial one followed by the payloads of the
IDAT-typed chunks in list order, nothing removed or altered.  Third, the
IEND step hands the inflater exactly the accumulated buffer: in a
reachable IEND step the chunk step is the inflater applied to `s.idat`
followed by the pass decoding of the decompressed stream, so the buffer
handed to zlib in any complete decode is 120, 156 followed by the
concatenated IDAT payloads. -/
theorem C10_idat_buffer :
    initState.idat = [120, 156] ∧
    (∀ (inflate : List Nat → Except PErr (List Nat)) (cs : List GoChunk)
        (s s2 : DecState), runChunks inflate s cs = .ok s2 →
      s2.idat = s.idat ++ idatPayloads cs) ∧
    (∀ (inflate : List Nat → Except PErr (List Nat)) (s : DecState)
        (c : GoChunk), c.ctype = dsSeenIEND → s.stage = dsSeenIDAT →
      chunkStep inflate s c =
        match inflate s.idat with
        | .error e => .error e
        | .ok stream =>
            match decodeStream { s with stage := dsSeenIEND } stream with
            | .error e => .error e
            | .ok oimg => .ok { s with stage := dsSeenIEND, img := oimg }) := by
  refine ⟨rfl, ?_, ?_⟩
  · intro inflate cs s s2 h
    exact runChunks_idat inflate cs s s2 h
  · intro inflate s c hE hs
    unfold chunkStep
    rw [if_neg (by rw [hE]; decide), if_neg (by rw [hE]; decide),
      if_pos hE, if_neg (fun hne => hne hs)]
    unfold decodeModel
    have hid : ({ s with stage := dsSeenIEND } : DecState).idat = s.idat :=
      rfl
    rw [hid]
    rcases hinf : inflate s.idat with e | stream
    · rfl
    · rfl

/-- Witness for C10: starting from the constructed state, one IDAT chunk
with payload 9, 9 leaves the buffer `[120, 156, 9, 9]`, and the IEND step
with an always-failing inflater fails with that inflater's error, showing
the inflater is consulted on exactly that buffer. -/
theorem C10_witness :
    runChunks (fun _ => .error .zlibError)
        { initState with stage := dsSeenIHDR } [⟨2, dsSeenIDAT, [9, 9], 0⟩] =
      .ok { initState with stage := dsSeenIDAT, idat := [120, 156, 9, 9] } ∧
    ({ initState with stage := dsSeenIDAT, idat := [120, 156, 9, 9] } : DecState).idat =
      ({ initState with stage := dsSeenIHDR } : DecState).idat ++
        idatPayloads [⟨2, dsSeenIDAT, [9, 9], 0⟩] ∧
    chunkStep (fun _ => .error .zlibError) { initState with stage := dsSeenIDAT, idat := [120, 156, 9, 9] } ⟨0, dsSeenIEND, [], 0⟩ =
      .error .zlibError := by
  have h : runChunks (fun _ => .error .zlibError)
      { initState with stage := dsSeenIHDR } [⟨2, dsSeenIDAT, [9, 9], 0⟩] =
      .ok { initState with stage := dsSeenIDAT, idat := [120, 156, 9, 9] } := by
    rfl
  refine ⟨h, ?_, ?_⟩
  · exact C10_idat_buffer.2.1 (fun _ => .error .zlibError)
      [⟨2, dsSeenIDAT, [9, 9], 0⟩] { initState with stage := dsSeenIHDR }
      { initState with stage := dsSeenIDAT, idat := [120, 156, 9, 9] } h
  · rw [C10_idat_buffer.2.2 (fun _ => .error .zlibError)
      { initState with stage := dsSeenIDAT, idat := [120, 156, 9, 9] }
      ⟨0, dsSeenIEND, [], 0⟩ rfl rfl]

end IpaPng
